import Mathlib

/-!
# WaykiChain RPC commons: `SubmitTx`, `GetTxDetailJSON`, `GetTxAddressDetail`

A shallow embedding of `src/rpc/core/rpccommons.cpp`.

The C++ functions work on global state (`pCdMan`, `chainActive`, `pWalletMain`,
`mempool`, `SysCfg()`); here that state is an explicit record
(`SubmitEnv`, `ChainEnv`).  Functions
whose code lives in other translation units (`GetTxMinFee`, `ToJson`,
`ComputeSignatureHash`, `ToAddress`, serialization, the caches, the wallet) are
fields of these records, so every theorem holds for all of their implementations.

Conventions.
* `uint64_t` values are natural numbers; `SubmitTx` only compares and copies
  them, the only arithmetic (`amount / COIN`) cannot overflow.
* A C++ exception is the `Outcome.rpcError` / `Outcome.runtimeError` result, a
  failed `assert` is `Outcome.abort`.
* A `double` is represented by the rational number it denotes.  A conversion to
  `double` and a `double` division round to the nearest 53 bit value, a tie going
  to the even one (`roundDouble`); the integer quotient of line 248 is below 2^53
  and converts exactly.
-/

namespace WaykiChain

/-! ## Data model -/

/-- The 256 bit hashes (`uint256`): transaction ids, block hashes, signature hashes. -/
abbrev uint256 := Nat

/-- Byte strings (`vector<unsigned char>`, `unsigned char[n]`); a cell is read modulo 256. -/
abbrev Bytes := List Nat

/-- The address hash `CKeyID` (a `uint160`). The default value is the empty key id. -/
structure CKeyID where
  id : Nat
  deriving DecidableEq, Repr, Inhabited

/-- The registered id `CRegID`, kept as the raw bytes it is built from (`vRegID`). -/
structure CRegID where
  vRegID : Bytes
  deriving DecidableEq, Repr, Inhabited

/-- A raw public key `CPubKey`. -/
structure CPubKey where
  vch : Bytes
  deriving DecidableEq, Repr, Inhabited

/-- The variant `CUserID`; `typeid` tests of the source are matches on the constructor. -/
inductive CUserID where
  | nullId
  | regId (r : CRegID)
  | keyId (k : CKeyID)
  | pubKey (p : CPubKey)
  | nickId (n : String)
  deriving DecidableEq, Repr, Inhabited

/-- The transaction type tags the source switches on; `unlisted` is any other tag. -/
inductive TxType where
  | BLOCK_REWARD_TX
  | ACCOUNT_REGISTER_TX
  | BCOIN_TRANSFER_TX
  | CONTRACT_INVOKE_TX
  | CONTRACT_DEPLOY_TX
  | DELEGATE_VOTE_TX
  | COMMON_MTX
  | CDP_STAKE_TX
  | CDP_REDEEMP_TX
  | CDP_LIQUIDATE_TX
  | PRICE_FEED_TX
  | FCOIN_STAKE_TX
  | DEX_SETTLE_TX
  | DEX_CANCEL_ORDER_TX
  | DEX_BUY_LIMIT_ORDER_TX
  | DEX_SELL_LIMIT_ORDER_TX
  | DEX_BUY_MARKET_ORDER_TX
  | DEX_SELL_MARKET_ORDER_TX
  | unlisted (tag : Nat)
  deriving DecidableEq, Repr, Inhabited

/-- One entry of `CMulsigTx::signaturePairs`. -/
structure CSignaturePair where
  regId : CRegID
  signature : Bytes
  deriving DecidableEq, Repr, Inhabited

/-- The transaction object behind a `CBaseTx` reference.  The fields the source reads
through its casts to `CBaseCoinTransferTx`, `CContractInvokeTx` and `CMulsigTx` are
gathered in one record; `valueWICC` is `GetValues()[CoinType::WICC]`, a `uint64_t`. -/
structure CBaseTx where
  nTxType : TxType
  txUid : CUserID
  llFees : Nat
  signature : Bytes
  valueWICC : Nat
  toUid : CUserID
  appUid : CUserID
  desUserId : CUserID
  memo : Bytes
  arguments : Bytes
  signaturePairs : List CSignaturePair
  required : Nat
  deriving DecidableEq, Repr, Inhabited

/-- The part of `CAccount` the source reads. -/
structure CAccount where
  keyId : CKeyID
  regId : CRegID
  pubKey : CPubKey
  IsRegistered : Bool
  GetFreeBcoins : Nat
  deriving DecidableEq, Repr, Inhabited

/-- JSON values (`json_spirit::Value`). -/
inductive Value where
  | str (s : String)
  | int (i : Int)
  | real (q : ℚ)
  | array (xs : List Value)
  | obj (fields : List (String × Value))

/-- A JSON object: name/value pairs in insertion order (`json_spirit::Object`). -/
abbrev Object := List (String × Value)

/-- A JSON array whose items are objects, as `Array arrayDetail` is filled. -/
abbrev ObjArray := List Object

/-- The error codes of `JSONRPCError`.  This file throws `RPC_WALLET_ERROR` only;
`unlisted` is a code thrown by a callee. -/
inductive RPCErrorCode where
  | RPC_WALLET_ERROR
  | unlisted (code : Int)
  deriving DecidableEq, Repr, Inhabited

/-- How a call ends: it returns, throws `JSONRPCError(code, message)`, throws
`runtime_error(message)`, or stops on a failed `assert`. -/
inductive Outcome (α : Type) where
  | ok (a : α)
  | rpcError (code : RPCErrorCode) (message : String)
  | runtimeError (message : String)
  | abort

/-- The account cache `pCdMan->pAccountCache`.  `GetRegId` gives the returned flag and
the content of the out parameter after the call. -/
structure CAccountCache where
  GetAccount : CUserID → Option CAccount
  GetKeyId : CUserID → Option CKeyID
  GetRegId : CUserID → Bool × CRegID

/-- The wallet `pWalletMain`.  `present` is `pWalletMain != nullptr`;
`EnsureWalletIsUnlocked` is `none` when the check passes and the error it throws
otherwise; `Sign` gives the returned flag and the signature written. -/
structure CWallet where
  present : Bool
  EnsureWalletIsUnlocked : Option (RPCErrorCode × String)
  HaveKey : CKeyID → Bool
  Sign : CKeyID → uint256 → Bool × Bytes
  CommitTx : CBaseTx → Bool × String

/-- The calls of `SubmitTx` into the wallet that the specification talks about. -/
inductive WalletCall where
  | Sign (keyId : CKeyID) (hash : uint256)
  | CommitTx (tx : CBaseTx)
  deriving DecidableEq, Repr

/-- The global state `SubmitTx` reads. -/
structure SubmitEnv where
  GetTxMinFee : TxType → Int → Nat
  chainActiveHeight : Int
  pAccountCache : CAccountCache
  pWalletMain : CWallet
  ComputeSignatureHash : CBaseTx → uint256

/-- What a run of `SubmitTx` leaves behind: the caller's transaction object (it is
passed by reference), the wallet calls made, in order, and the outcome. -/
structure SubmitRun where
  tx : CBaseTx
  calls : List WalletCall
  result : Outcome Object

/-! ## `SubmitTx` -/

/-- The message of the fee error, `strprintf("Tx fee given is too small: %d < %d", ..)`. -/
def feeTooSmallMessage (llFees minFee : Nat) : String :=
  "Tx fee given is too small: " ++ toString llFees ++ " < " ++ toString minFee

/-- Lines 33-60 of `SubmitTx`: key id, registered id, signing and commit. -/
def SubmitTx.signAndCommit (env : SubmitEnv) (userId : CUserID) (tx : CBaseTx) : SubmitRun :=
  match env.pAccountCache.GetKeyId userId with
  | none => ⟨tx, [], .rpcError .RPC_WALLET_ERROR "Failed to acquire key id"⟩
  | some keyId =>
    let regId := (env.pAccountCache.GetRegId userId).2
    let tx := { tx with txUid := CUserID.regId regId }
    if !env.pWalletMain.present then ⟨tx, [], .abort⟩
    else
      match env.pWalletMain.EnsureWalletIsUnlocked with
      | some e => ⟨tx, [], .rpcError e.1 e.2⟩
      | none =>
        if !env.pWalletMain.HaveKey keyId then
          ⟨tx, [], .rpcError .RPC_WALLET_ERROR "Sender address not found in wallet"⟩
        else
          let hash := env.ComputeSignatureHash tx
          let signed := env.pWalletMain.Sign keyId hash
          let tx := { tx with signature := signed.2 }
          if !signed.1 then
            ⟨tx, [.Sign keyId hash], .rpcError .RPC_WALLET_ERROR "Sign failed"⟩
          else
            let ret := env.pWalletMain.CommitTx tx
            if !ret.1 then
              ⟨tx, [.Sign keyId hash, .CommitTx tx], .rpcError .RPC_WALLET_ERROR ret.2⟩
            else
              ⟨tx, [.Sign keyId hash, .CommitTx tx], .ok [("txid", .str ret.2)]⟩

/-- Lines 23-31 of `SubmitTx`: the account must be registered and cover the fee. -/
def SubmitTx.checkAccount (env : SubmitEnv) (userId : CUserID) (tx : CBaseTx) : SubmitRun :=
  match env.pAccountCache.GetAccount userId with
  | some account =>
    if account.IsRegistered then
      if account.GetFreeBcoins < tx.llFees then
        ⟨tx, [], .rpcError .RPC_WALLET_ERROR "Account balance is insufficient"⟩
      else SubmitTx.signAndCommit env userId tx
    else ⟨tx, [], .rpcError .RPC_WALLET_ERROR "Account is unregistered"⟩
  | none => ⟨tx, [], .rpcError .RPC_WALLET_ERROR "Account is unregistered"⟩

/-- The function `SubmitTx(CUserID &userId, CBaseTx &tx)`. -/
def SubmitTx (env : SubmitEnv) (userId : CUserID) (tx : CBaseTx) : SubmitRun :=
  let minFee := env.GetTxMinFee tx.nTxType env.chainActiveHeight
  if tx.llFees = 0 then
    SubmitTx.checkAccount env userId { tx with llFees := minFee }
  else if tx.llFees < minFee then
    ⟨tx, [], .rpcError .RPC_WALLET_ERROR (feeTooSmallMessage tx.llFees minFee)⟩
  else
    SubmitTx.checkAccount env userId tx

/-! ## `RegIDToAddress` and the chain state of the two query functions -/

/-- Modelled from the spec: the constant `COIN`, declared outside this file, is the
chain's fixed coin scale, 100000000 smallest units in one coin.  It is an integer
constant: line 155 converts the value to `double` before dividing by it. -/
def COIN : Nat := 100000000

/-- Rounding of a rational to the nearest integer, a tie going to the even one. -/
def roundHalfEven (x : ℚ) : ℤ :=
  if x - ⌊x⌋ < 1 / 2 then ⌊x⌋
  else if 1 / 2 < x - ⌊x⌋ then ⌊x⌋ + 1
  else if ⌊x⌋ % 2 = 0 then ⌊x⌋ else ⌊x⌋ + 1

/-- The exponent of the unit in the last place of the `double` nearest to `q`: the
significand has 53 bits, so it is the binary exponent of `q` less 52. -/
def ulpExponent (q : ℚ) : ℤ := Int.log 2 |q| - 52

/-- The `double` a real result is rounded to (IEEE 754 binary64, round to nearest, ties
to even): `q` is scaled so that its integer part has 53 bits, rounded to an integer and
scaled back.  The exponent range of `double` is not modelled; it is not reached, the
operands being `uint64_t` values and `COIN`, so that every non-zero result lies between
`1 / COIN` and `2^64`. -/
def roundDouble (q : ℚ) : ℚ :=
  if q = 0 then 0
  else (roundHalfEven (q / (2 : ℚ) ^ ulpExponent q) : ℚ) * (2 : ℚ) ^ ulpExponent q

/-- The `double` of lines 155 and 272, `static_cast<double>(value) / COIN`: the value is
converted to `double`, `COIN` is converted exactly, and the quotient is rounded. -/
def doubleAmount (value : Nat) : ℚ := roundDouble (roundDouble (value : ℚ) / (COIN : ℚ))

/-- The C cast `(int) x` of an integer to a 32 bit `int`. -/
def toInt32 (x : Int) : Int := (x + 2147483648) % 4294967296 - 2147483648

/-- Cell `i` of a C byte array. -/
def cell (bs : Bytes) (i : Nat) : Nat := bs.getD i 0 % 256

/-- One hexadecimal digit, lower case. -/
def hexDigit (n : Nat) : Char := "0123456789abcdef".toList.getD n '0'

/-- Modelled from the spec: `HexStr`, whose code is not in this file, is the
hex encoding of a byte string: two lower case digits per byte, high nibble first. -/
def HexStr (bs : Bytes) : String :=
  String.mk (bs.flatMap fun b => [hexDigit (b % 256 / 16), hexDigit (b % 16)])

/-- The tag `CVmOperate::accountType` (`enum ACCOUNT_TYPE`). -/
inductive ACCOUNT_TYPE where
  | regid
  | base58addr
  | unlisted (tag : Nat)
  deriving DecidableEq, Repr, Inhabited

/-- The tag `CVmOperate::opType`. -/
inductive OperType where
  | ADD_BCOIN
  | MINUS_BCOIN
  | unlisted (tag : Nat)
  deriving DecidableEq, Repr, Inhabited

/-- A recorded contract output `CVmOperate`: `accountId` is `unsigned char[34]`,
`money` is `unsigned char[8]`, `timeoutHeight` is `unsigned int`. -/
structure CVmOperate where
  accountType : ACCOUNT_TYPE
  accountId : Bytes
  opType : OperType
  timeoutHeight : Nat
  money : Bytes
  deriving DecidableEq, Repr, Inhabited

/-- What the source reads of a `CBlockHeader`. -/
structure CBlockHeader where
  GetHeight : Nat
  GetTime : Int
  GetHash : uint256
  deriving DecidableEq, Repr, Inhabited

/-- A block as `ReadBlockFromDisk` leaves it in `genesisblock`. -/
structure CBlock where
  GetMerkleRootHash : uint256
  GetTime : Int
  vptx : List CBaseTx
  deriving DecidableEq, Repr, Inhabited

/-- A position record of the transaction index, `CDiskTxPos`. -/
structure CDiskTxPos where
  nFile : Nat
  nPos : Nat
  nTxOffset : Nat
  deriving DecidableEq, Repr, Inhabited

/-- The global state read by `GetTxDetailJSON` and `GetTxAddressDetail`.
* `genesisblock` is the block read for `mapBlockIndex[SysCfg().GetGenesisBlockHash()]`;
  `BuildMerkleTree` and `GetTxid` are the methods of `CBlock` (`GetTxid b i` is the id
  of transaction `i` of `b`).
* `ReadBlockHeader pos` is `OpenBlockFile` followed by `file >> header`, `ReadTx pos`
  is the `fseek` followed by `file >> pBaseTx`; each gives the value read, or the
  `what()` of the exception thrown.
* `GetTxOutput h` is the content of `vOutput` after `pContractCache->GetTxOutput(h, vOutput)`.
* `GetInvolvedKeyIds tx` is `none` when the call returns false, otherwise the key id
  set it fills, in iteration order.
* `MulsigScriptID required keys` is `GetID()` of the script `SetMultisig` builds from
  the set into which `keys` were inserted, in that order. -/
structure ChainEnv where
  pAccountCache : CAccountCache
  GetGenesisBlockHash : uint256
  genesisblock : CBlock
  BuildMerkleTree : CBlock → uint256
  GetTxid : CBlock → Nat → uint256
  IsTxIndex : Bool
  ReadTxIndex : uint256 → Option CDiskTxPos
  ReadBlockHeader : CDiskTxPos → Except String CBlockHeader
  ReadTx : CDiskTxPos → Except String CBaseTx
  mempoolLookup : uint256 → Option CBaseTx
  GetTxOutput : uint256 → List CVmOperate
  GetHash : CBaseTx → uint256
  GetHex : uint256 → String
  ToJson : CBaseTx → Object
  VmOperateToJson : CVmOperate → Value
  Serialize : CBaseTx → Bytes
  ToAddress : CKeyID → String
  PubKeyGetKeyId : CPubKey → CKeyID
  GetInvolvedKeyIds : CBaseTx → Option (List CKeyID)
  MulsigScriptID : Nat → List CPubKey → CKeyID

/-- The function `RegIDToAddress(CUserID &userId)`. -/
def RegIDToAddress (env : ChainEnv) (userId : CUserID) : String :=
  match env.pAccountCache.GetKeyId userId with
  | some keyId => env.ToAddress keyId
  | none => "cannot get address from given RegId"

/-! ## `GetTxDetailJSON` -/

/-- The loop of lines 90-101: the first index `i`, counted from `i`, whose transaction
id is `txid`, with the transaction at that index. -/
def GetTxDetailJSON.scanGenesis (getTxid : Nat → uint256) (txid : uint256) :
    Nat → List CBaseTx → Option (Nat × CBaseTx)
  | _, [] => none
  | i, tx :: rest =>
    if txid = getTxid i then some (i, tx)
    else GetTxDetailJSON.scanGenesis getTxid txid (i + 1) rest

/-- The record of lines 92-98, built for the genesis transaction `tx`. -/
def GetTxDetailJSON.genesisRecord (env : ChainEnv) (tx : CBaseTx) : Object :=
  env.ToJson tx ++
    [("block_hash", .str (env.GetHex env.GetGenesisBlockHash)),
     ("confirmed_height", .int 0),
     ("confirmed_time", .int (toInt32 env.genesisblock.GetTime)),
     ("rawtx", .str (HexStr (env.Serialize tx)))]

/-- The record of lines 112-128, built from the header and transaction read from disk. -/
def GetTxDetailJSON.indexedRecord (env : ChainEnv) (header : CBlockHeader) (tx : CBaseTx) :
    Object :=
  env.ToJson tx ++
    [("confirmed_height", .int (toInt32 header.GetHeight)),
     ("confirmed_time", .int (toInt32 header.GetTime)),
     ("block_hash", .str (env.GetHex header.GetHash))] ++
    (if tx.nTxType = TxType.CONTRACT_INVOKE_TX then
      [("listOutput", .array ((env.GetTxOutput (env.GetHash tx)).map env.VmOperateToJson))]
     else []) ++
    [("rawtx", .str (HexStr (env.Serialize tx)))]

/-- The message of the `runtime_error` of line 130, `__func__` being `GetTxDetailJSON`. -/
def deserializeErrorMessage (what : String) : String :=
  "GetTxDetailJSON : Deserialize or I/O error - " ++ what

/-- The `try` block of lines 108-131 for an index hit at `postx`. -/
def GetTxDetailJSON.readIndexed (env : ChainEnv) (postx : CDiskTxPos) : Outcome Object :=
  match env.ReadBlockHeader postx with
  | .error what => .runtimeError (deserializeErrorMessage what)
  | .ok header =>
    match env.ReadTx postx with
    | .error what => .runtimeError (deserializeErrorMessage what)
    | .ok tx => .ok (GetTxDetailJSON.indexedRecord env header tx)

/-- Lines 135-146: the pending pool lookup and the final `return obj`. -/
def GetTxDetailJSON.fromMempool (env : ChainEnv) (txid : uint256) : Outcome Object :=
  match env.mempoolLookup txid with
  | some tx => .ok (env.ToJson tx ++ [("rawtx", .str (HexStr (env.Serialize tx)))])
  | none => .ok []

/-- The function `GetTxDetailJSON(const uint256& txid)`. -/
def GetTxDetailJSON (env : ChainEnv) (txid : uint256) : Outcome Object :=
  if env.genesisblock.GetMerkleRootHash ≠ env.BuildMerkleTree env.genesisblock then .abort
  else
    match GetTxDetailJSON.scanGenesis (env.GetTxid env.genesisblock) txid 0
        env.genesisblock.vptx with
    | some hit => .ok (GetTxDetailJSON.genesisRecord env hit.2)
    | none =>
      if env.IsTxIndex then
        match env.ReadTxIndex txid with
        | some postx => GetTxDetailJSON.readIndexed env postx
        | none => GetTxDetailJSON.fromMempool env txid
      else GetTxDetailJSON.fromMempool env txid

/-! ## `GetTxAddressDetail` -/

/-- Modelled from the spec: `CRegID::GetKeyId(const CAccountCache&)`, whose code is not
in this file, gives the key id the account cache maps the registered id to, and the
empty key id when the cache has none. -/
def CRegID.GetKeyId (cache : CAccountCache) (regId : CRegID) : CKeyID :=
  (cache.GetKeyId (CUserID.regId regId)).getD default

/-- The element `*vKeyIdSet.begin()` of a filled key id set. -/
def firstKeyId (keys : List CKeyID) : CKeyID := keys.headD default

/-- The sender key id of lines 183-188 and 209-214: only the public key and the
registered id forms are looked at, any other form leaves the empty key id. -/
def senderKeyId (env : ChainEnv) (txUid : CUserID) : CKeyID :=
  match txUid with
  | .pubKey p => env.PubKeyGetKeyId p
  | .regId r => CRegID.GetKeyId env.pAccountCache r
  | _ => default

/-- The receiver key id of lines 190-196 and 303-309: only the key id and the
registered id forms are looked at. -/
def receiverKeyId (env : ChainEnv) (uid : CUserID) : CKeyID :=
  match uid with
  | .keyId k => k
  | .regId r => CRegID.GetKeyId env.pAccountCache r
  | _ => default

/-- The contract key id of lines 216-220: only the registered id form is looked at. -/
def appKeyId (env : ChainEnv) (appUid : CUserID) : CKeyID :=
  match appUid with
  | .regId r => CRegID.GetKeyId env.pAccountCache r
  | _ => default

/-- The value `memcpy(&amount, item.money, sizeof(item.money))` leaves in the
`uint64_t amount` on a little-endian machine. -/
def moneyAmount (money : Bytes) : Nat :=
  (List.range 8).foldr (fun i acc => cell money i + 256 * acc) 0

/-- The string `address` of lines 234-242.  For the `base58addr` form the call
`address.assign(item.accountId[0], sizeof(item.accountId))` selects the overload
`assign(size_type count, char ch)`: `accountId[0]` copies of the character with
code 34, the size of the array. -/
def outputAddress (env : ChainEnv) (item : CVmOperate) : String :=
  match item.accountType with
  | .regid =>
    RegIDToAddress env (CUserID.regId ⟨(List.range 6).map (cell item.accountId)⟩)
  | .base58addr => String.mk (List.replicate (cell item.accountId 0) (Char.ofNat 34))
  | .unlisted _ => ""

/-- The `double dAmount = amount / COIN` of line 248: both operands are integers, so
the quotient is the integer quotient, converted to `double` afterwards. -/
def outputAmount (item : CVmOperate) : ℚ := ((moneyAmount item.money / COIN : Nat) : ℚ)

/-- The record `objOutPut` the loop body of lines 233-261 builds for one output. -/
def outputRecord (env : ChainEnv) (item : CVmOperate) : Object :=
  [("address", Value.str (outputAddress env item))] ++
    (match item.opType with
     | .ADD_BCOIN =>
       [("category", Value.str "receive"), ("amount", Value.real (outputAmount item))]
     | .MINUS_BCOIN =>
       [("category", Value.str "send"), ("amount", Value.real (-outputAmount item))]
     | .unlisted _ => []) ++
    (if item.timeoutHeight > 0 then
      [("freeze_height", Value.int (toInt32 item.timeoutHeight))]
     else [])

/-- The summary record of lines 222-226 for a contract invocation. -/
def invokeSummary (env : ChainEnv) (tx : CBaseTx) (dAmount : ℚ) : Object :=
  [("tx_type", .str "CONTRACT_INVOKE_TX"),
   ("from_address", .str (env.ToAddress (senderKeyId env tx.txUid))),
   ("to_address", .str (env.ToAddress (appKeyId env tx.appUid))),
   ("arguments", .str (HexStr tx.arguments)),
   ("transfer_amount", .real dAmount)]

/-- The loop of lines 292-297: the public keys of the co-signers' accounts, in order,
or `none` when the account cache has no account for one of them. -/
def cosignerPubKeys (cache : CAccountCache) : List CSignaturePair → Option (List CPubKey)
  | [] => some []
  | item :: rest =>
    match cache.GetAccount (CUserID.regId item.regId) with
    | none => none
    | some account =>
      match cosignerPubKeys cache rest with
      | none => none
      | some keys => some (account.pubKey :: keys)

/-- The record of the cases `BLOCK_REWARD_TX` and `ACCOUNT_REGISTER_TX`. -/
def involvedRecord (env : ChainEnv) (keys : List CKeyID) (category : String) (dAmount : ℚ)
    (txType : String) : Object :=
  [("address", .str (env.ToAddress (firstKeyId keys))),
   ("category", .str category),
   ("amount", .real dAmount),
   ("tx_type", .str txType)]

/-- The record of the cases `CONTRACT_DEPLOY_TX` and `DELEGATE_VOTE_TX`. -/
def deployVoteRecord (env : ChainEnv) (keys : List CKeyID) (dAmount : ℚ)
    (txType : String) : Object :=
  [("from_address", .str (env.ToAddress (firstKeyId keys))),
   ("category", .str "send"),
   ("transfer_amount", .real dAmount),
   ("tx_type", .str txType)]

/-- The function `GetTxAddressDetail(std::shared_ptr<CBaseTx> pBaseTx)`.  The
`dAmount` of line 155 (and its copy of line 272) is the WICC value over `COIN`,
computed in `double`. -/
def GetTxAddressDetail (env : ChainEnv) (tx : CBaseTx) : ObjArray :=
  let dAmount : ℚ := doubleAmount tx.valueWICC
  match tx.nTxType with
  | .BLOCK_REWARD_TX =>
    match env.GetInvolvedKeyIds tx with
    | none => []
    | some keys => [involvedRecord env keys "receive" dAmount "BLOCK_REWARD_TX"]
  | .ACCOUNT_REGISTER_TX =>
    match env.GetInvolvedKeyIds tx with
    | none => []
    | some keys => [involvedRecord env keys "send" dAmount "ACCOUNT_REGISTER_TX"]
  | .BCOIN_TRANSFER_TX =>
    [[("tx_type", .str "BCOIN_TRANSFER_TX"),
      ("from_address", .str (env.ToAddress (senderKeyId env tx.txUid))),
      ("to_address", .str (env.ToAddress (receiverKeyId env tx.toUid))),
      ("transfer_amount", .real dAmount),
      ("memo", .str (HexStr tx.memo))]]
  | .CONTRACT_INVOKE_TX =>
    invokeSummary env tx dAmount ::
      (env.GetTxOutput (env.GetHash tx)).map (outputRecord env)
  | .CONTRACT_DEPLOY_TX =>
    match env.GetInvolvedKeyIds tx with
    | none => []
    | some keys => [deployVoteRecord env keys dAmount "CONTRACT_DEPLOY_TX"]
  | .DELEGATE_VOTE_TX =>
    match env.GetInvolvedKeyIds tx with
    | none => []
    | some keys => [deployVoteRecord env keys dAmount "DELEGATE_VOTE_TX"]
  | .COMMON_MTX =>
    match cosignerPubKeys env.pAccountCache tx.signaturePairs with
    | none => []
    | some pubKeys =>
      [[("tx_type", .str "COMMON_MTX"),
        ("from_address", .str (env.ToAddress (env.MulsigScriptID tx.required pubKeys))),
        ("to_address", .str (env.ToAddress (receiverKeyId env tx.desUserId))),
        ("transfer_amount", .real dAmount),
        ("memo", .str (HexStr tx.memo))]]
  | _ => []

/-! ## Concrete states used to instantiate the theorems -/

/-- A registered account with a free balance of `balance`. -/
def sampleAccount (registered : Bool) (balance : Nat) : CAccount :=
  { keyId := ⟨1⟩, regId := ⟨[1, 0, 0, 0, 1, 0]⟩, pubKey := ⟨[2, 3]⟩,
    IsRegistered := registered, GetFreeBcoins := balance }

/-- An account cache: key id 1 is registered and holds 1000000, key id 2 is known but
not registered, key id 3 is registered and holds 3; nothing else is known. -/
def sampleCache : CAccountCache :=
  { GetAccount := fun u =>
      if u = CUserID.keyId ⟨1⟩ then some (sampleAccount true 1000000)
      else if u = CUserID.keyId ⟨2⟩ then some (sampleAccount false 0)
      else if u = CUserID.keyId ⟨3⟩ then some (sampleAccount true 3)
      else none,
    GetKeyId := fun u =>
      match u with
      | .keyId k => some k
      | _ => none,
    GetRegId := fun _ => (true, ⟨[1, 0, 0, 0, 1, 0]⟩) }

/-- An unlocked wallet that holds every key, signs with `[7]` and accepts every commit. -/
def sampleWallet : CWallet :=
  { present := true, EnsureWalletIsUnlocked := none, HaveKey := fun _ => true,
    Sign := fun _ _ => (true, [7]), CommitTx := fun _ => (true, "c0ffee") }

/-- A state in which every transaction type has a minimum fee of 10000. -/
def sampleSubmitEnv : SubmitEnv :=
  { GetTxMinFee := fun _ _ => 10000, chainActiveHeight := 100,
    pAccountCache := sampleCache, pWalletMain := sampleWallet,
    ComputeSignatureHash := fun tx => tx.llFees + 1 }

/-- A coin transfer that declares the fee `fee`. -/
def sampleTx (fee : Nat) : CBaseTx :=
  { nTxType := .BCOIN_TRANSFER_TX, txUid := .keyId ⟨1⟩, llFees := fee, signature := [],
    valueWICC := 150000000, toUid := .keyId ⟨2⟩, appUid := .nullId, desUserId := .nullId,
    memo := [104, 105], arguments := [], signaturePairs := [], required := 0 }

/-- The transaction `sampleTx fee` after a successful `SubmitTx` in `sampleSubmitEnv`. -/
def sampleCommitted (fee : Nat) : CBaseTx :=
  { sampleTx fee with txUid := .regId ⟨[1, 0, 0, 0, 1, 0]⟩, signature := [7] }

/-- A recorded credit of 200000000 smallest units to the registered id `1-1`. -/
def creditOutput : CVmOperate :=
  { accountType := .regid, accountId := [1, 0, 0, 0, 1, 0], opType := .ADD_BCOIN,
    timeoutHeight := 0, money := [0, 194, 235, 11, 0, 0, 0, 0] }

/-- A recorded debit of 50000000 smallest units with freeze height 100. -/
def debitOutput : CVmOperate :=
  { accountType := .regid, accountId := [1, 0, 0, 0, 1, 0], opType := .MINUS_BCOIN,
    timeoutHeight := 100, money := [128, 240, 250, 2, 0, 0, 0, 0] }

/-- A contract invocation sent by the registered id `1-1`. -/
def sampleInvokeTx : CBaseTx :=
  { nTxType := .CONTRACT_INVOKE_TX, txUid := .regId ⟨[1, 0, 0, 0, 1, 0]⟩, llFees := 10000,
    signature := [7], valueWICC := 0, toUid := .nullId, appUid := .regId ⟨[2, 0, 0, 0, 1, 0]⟩,
    desUserId := .nullId, memo := [], arguments := [171, 205], signaturePairs := [],
    required := 0 }

/-- A chain state.  The genesis block holds two transactions with the ids 500 and 501;
the pending pool holds a transaction under the id 500 as well.  The index knows the ids
900 (its block file cannot be read) and 901. -/
def sampleChain : ChainEnv :=
  { pAccountCache :=
      { GetAccount := sampleCache.GetAccount,
        GetKeyId := fun u =>
          match u with
          | .keyId k => some k
          | .regId r => if r = ⟨[1, 0, 0, 0, 1, 0]⟩ then some ⟨1⟩ else none
          | _ => none,
        GetRegId := sampleCache.GetRegId },
    GetGenesisBlockHash := 12345,
    genesisblock :=
      { GetMerkleRootHash := 77, GetTime := 1525404823,
        vptx := [sampleTx 0, sampleTx 1] },
    BuildMerkleTree := fun _ => 77,
    GetTxid := fun _ i => 500 + i,
    IsTxIndex := true,
    ReadTxIndex := fun txid =>
      if txid = 900 then some ⟨0, 10, 20⟩
      else if txid = 901 then some ⟨0, 10, 30⟩
      else none,
    ReadBlockHeader := fun pos =>
      if pos.nTxOffset = 20 then .error "CAutoFile::read : file handle is NULL"
      else .ok { GetHeight := 8, GetTime := 1525405000, GetHash := 4242 },
    ReadTx := fun _ => .ok sampleInvokeTx,
    mempoolLookup := fun txid => if txid = 500 then some (sampleTx 3) else none,
    GetTxOutput := fun _ => [creditOutput, debitOutput],
    GetHash := fun tx => tx.llFees,
    GetHex := fun h => toString h,
    ToJson := fun tx => [("fees", .int tx.llFees)],
    VmOperateToJson := fun item => .int item.timeoutHeight,
    Serialize := fun tx => [tx.llFees],
    ToAddress := fun k => "addr" ++ toString k.id,
    PubKeyGetKeyId := fun p => ⟨p.vch.length⟩,
    GetInvolvedKeyIds := fun _ => some [⟨1⟩],
    MulsigScriptID := fun required keys => ⟨required + keys.length⟩ }

/-- The state `sampleChain` with a pending pool that holds the indexed id 901. -/
def sampleChainPooled : ChainEnv :=
  { sampleChain with
    mempoolLookup := fun txid => if txid = 901 then some (sampleTx 3) else none }

/-- The state `sampleChainPooled` with transaction indexing switched off. -/
def sampleChainNoIndex : ChainEnv :=
  { sampleChainPooled with IsTxIndex := false }

/-- A multisig transfer whose second co-signer, the registered id `9-1`, is unknown to
the account cache of `sampleChainCosigner`. -/
def sampleMulsigTx : CBaseTx :=
  { nTxType := .COMMON_MTX, txUid := .nullId, llFees := 10000, signature := [],
    valueWICC := 150000000, toUid := .nullId, appUid := .nullId, desUserId := .keyId ⟨2⟩,
    memo := [], arguments := [],
    signaturePairs := [⟨⟨[1, 0, 0, 0, 1, 0]⟩, [7]⟩, ⟨⟨[9, 0, 0, 0, 1, 0]⟩, [8]⟩],
    required := 2 }

/-- The state `sampleChain` with an account cache that has an account for the
registered id `1-1` and for no other registered id. -/
def sampleChainCosigner : ChainEnv :=
  { sampleChain with
    pAccountCache :=
      { sampleChain.pAccountCache with
        GetAccount := fun u =>
          if u = CUserID.regId ⟨[1, 0, 0, 0, 1, 0]⟩ then some (sampleAccount true 1000000)
          else none } }

/-- A price feed, a kind that is not projected. -/
def samplePriceFeedTx : CBaseTx :=
  { sampleTx 10000 with nTxType := .PRICE_FEED_TX }

/-- A block reward. -/
def sampleRewardTx : CBaseTx :=
  { sampleTx 0 with nTxType := .BLOCK_REWARD_TX, valueWICC := 250000000 }

/-- A delegate vote. -/
def sampleVoteTx : CBaseTx :=
  { sampleTx 10000 with nTxType := .DELEGATE_VOTE_TX, valueWICC := 0 }

/-- A recorded credit to the registered id `9-1`, which the account cache of
`sampleChain` cannot resolve. -/
def unresolvedOutput : CVmOperate :=
  { accountType := .regid, accountId := [9, 0, 0, 0, 1, 0], opType := .ADD_BCOIN,
    timeoutHeight := 0, money := [0, 194, 235, 11, 0, 0, 0, 0] }

/-- The state `sampleChain` with the recorded outputs `unresolvedOutput` and
`creditOutput` for every contract invocation. -/
def sampleChainUnresolved : ChainEnv :=
  { sampleChain with GetTxOutput := fun _ => [unresolvedOutput, creditOutput] }

/-- The 34 bytes of the address text `WZ8CmYvPLKXCB9qjaEeabcdefghijkmnop` (`W` is 87). -/
def sampleAddressBytes : Bytes :=
  [87, 90, 56, 67, 109, 89, 118, 80, 76, 75, 88, 67, 66, 57, 113, 106, 97, 69, 101, 97,
   98, 99, 100, 101, 102, 103, 104, 105, 106, 107, 109, 110, 111, 112]

/-- A recorded credit of 200000000 to the raw address stored in `sampleAddressBytes`. -/
def base58Output : CVmOperate :=
  { accountType := .base58addr, accountId := sampleAddressBytes, opType := .ADD_BCOIN,
    timeoutHeight := 0, money := [0, 194, 235, 11, 0, 0, 0, 0] }

/-- The state `sampleChain` with the single recorded output `base58Output`. -/
def sampleChainBase58 : ChainEnv :=
  { sampleChain with GetTxOutput := fun _ => [base58Output] }

/-- The address string stored in the 34 account-id bytes of a recorded output, as the
specification reads the raw-address form: one character per byte. -/
def storedAddress (item : CVmOperate) : String :=
  String.mk ((List.range 34).map fun i => Char.ofNat (cell item.accountId i))

/-- The value of a hexadecimal digit, `none` for any other character. -/
def hexValue (c : Char) : Option Nat :=
  if 48 ≤ c.toNat ∧ c.toNat ≤ 57 then some (c.toNat - 48)
  else if 97 ≤ c.toNat ∧ c.toNat ≤ 102 then some (c.toNat - 87)
  else if 65 ≤ c.toNat ∧ c.toNat ≤ 70 then some (c.toNat - 55)
  else none

/-- Hex decoding of a character list: two digits per byte, high nibble first. -/
def hexDecodeChars : List Char → Option Bytes
  | [] => some []
  | [_] => none
  | high :: low :: rest =>
    match hexValue high, hexValue low, hexDecodeChars rest with
    | some h, some l, some bytes => some ((16 * h + l) :: bytes)
    | _, _, _ => none

/-- Hex decoding of a string, the inverse the specification asks of the `memo` field. -/
def hexDecode (s : String) : Option Bytes := hexDecodeChars s.toList

/-- The address hash an identifier denotes, in the words of the specification: a
public key gives its own key id, a registered id gives the key id the account cache
maps it to, an address hash gives itself. -/
def specDenotedKeyId (env : ChainEnv) : CUserID → Option CKeyID
  | .pubKey p => some (env.PubKeyGetKeyId p)
  | .regId r => env.pAccountCache.GetKeyId (.regId r)
  | .keyId k => some k
  | _ => none

/-- A transfer of 150000000 from the registered id `1-1` to the key id 2 with the memo
`hi`. -/
def sampleTransferTx : CBaseTx :=
  { sampleTx 10000 with txUid := .regId ⟨[1, 0, 0, 0, 1, 0]⟩ }

/-- A transfer whose sender is given as the address hash 1 and whose recipient is given
as a public key (of key id 2 in `sampleChain`). -/
def sampleOtherFormsTx : CBaseTx :=
  { sampleTx 10000 with txUid := .keyId ⟨1⟩, toUid := .pubKey ⟨[2, 3]⟩ }

/-! ## Properties of `SubmitTx` -/

/-- A commit made by lines 33-60 hands over the transaction with the fee and the type
it was entered with. -/
theorem SubmitTx.signAndCommit_commit (env : SubmitEnv) (userId : CUserID) (tx c : CBaseTx)
    (h : WalletCall.CommitTx c ∈ (SubmitTx.signAndCommit env userId tx).calls) :
    c.llFees = tx.llFees ∧ c.nTxType = tx.nTxType := by
  unfold SubmitTx.signAndCommit at h
  split at h
  · simp at h
  · dsimp only at h
    split at h
    · simp at h
    · split at h
      · simp at h
      · split at h
        · simp at h
        · split at h
          · simp at h
          · split at h <;> simp at h <;> subst h <;> exact ⟨rfl, rfl⟩

/-- A commit made from line 23 on was preceded by the account checks. -/
theorem SubmitTx.checkAccount_commit (env : SubmitEnv) (userId : CUserID) (tx c : CBaseTx)
    (h : WalletCall.CommitTx c ∈ (SubmitTx.checkAccount env userId tx).calls) :
    c.llFees = tx.llFees ∧ c.nTxType = tx.nTxType ∧
      ∃ account, env.pAccountCache.GetAccount userId = some account ∧
        account.IsRegistered = true ∧ tx.llFees ≤ account.GetFreeBcoins := by
  unfold SubmitTx.checkAccount at h
  split at h
  next account hacc =>
    split at h
    next hreg =>
      split at h
      · simp at h
      next hbal =>
        obtain ⟨h1, h2⟩ := SubmitTx.signAndCommit_commit env userId tx c h
        exact ⟨h1, h2, account, hacc, hreg, Nat.le_of_not_lt hbal⟩
    · simp at h
  · simp at h

/-- Without a registered account line 30 throws before any wallet call. -/
theorem SubmitTx.checkAccount_unregistered (env : SubmitEnv) (userId : CUserID) (tx : CBaseTx)
    (h : ∀ account, env.pAccountCache.GetAccount userId = some account →
      account.IsRegistered = false) :
    (SubmitTx.checkAccount env userId tx).result
        = .rpcError .RPC_WALLET_ERROR "Account is unregistered" ∧
      (SubmitTx.checkAccount env userId tx).calls = [] := by
  unfold SubmitTx.checkAccount
  split
  next account hacc =>
    have hreg := h account hacc
    simp [hreg]
  · exact ⟨rfl, rfl⟩

/-- A registered account whose free balance is below the fee makes line 27 throw
before any wallet call. -/
theorem SubmitTx.checkAccount_insufficient (env : SubmitEnv) (userId : CUserID)
    (tx : CBaseTx) (account : CAccount)
    (hacc : env.pAccountCache.GetAccount userId = some account)
    (hreg : account.IsRegistered = true) (hbal : account.GetFreeBcoins < tx.llFees) :
    SubmitTx.checkAccount env userId tx
      = ⟨tx, [], .rpcError .RPC_WALLET_ERROR "Account balance is insufficient"⟩ := by
  unfold SubmitTx.checkAccount
  simp [hacc, hreg, hbal]

/-- C1: whenever `SubmitTx` reaches the wallet's `CommitTx`, the transaction handed over
has the type of the submitted one and a fee of at least
`GetTxMinFee(tx.nTxType, chainActive.Height())`, and the account cache resolves the
sender to a registered account whose free balance is at least that fee. -/
theorem SubmitTx_commit_fee_floor_and_balance (env : SubmitEnv) (userId : CUserID)
    (tx committed : CBaseTx)
    (h : WalletCall.CommitTx committed ∈ (SubmitTx env userId tx).calls) :
    committed.nTxType = tx.nTxType ∧
      env.GetTxMinFee tx.nTxType env.chainActiveHeight ≤ committed.llFees ∧
      ∃ account, env.pAccountCache.GetAccount userId = some account ∧
        account.IsRegistered = true ∧ committed.llFees ≤ account.GetFreeBcoins := by
  unfold SubmitTx at h
  dsimp only at h
  split at h
  · obtain ⟨h1, h2, account, hacc, hreg, hbal⟩ :=
      SubmitTx.checkAccount_commit env userId _ committed h
    simp only at h1 h2 hbal
    exact ⟨h2, by omega, account, hacc, hreg, by omega⟩
  · split at h
    · simp at h
    next hlt =>
      obtain ⟨h1, h2, account, hacc, hreg, hbal⟩ :=
        SubmitTx.checkAccount_commit env userId tx committed h
      exact ⟨h2, by omega, account, hacc, hreg, by omega⟩

/-- Witness of C1: the commit of a zero-fee transfer in `sampleSubmitEnv`. -/
theorem SubmitTx_commit_fee_floor_and_balance_witness :
    WalletCall.CommitTx (sampleCommitted 10000)
        ∈ (SubmitTx sampleSubmitEnv (.keyId ⟨1⟩) (sampleTx 0)).calls ∧
      (sampleCommitted 10000).nTxType = (sampleTx 0).nTxType ∧
      sampleSubmitEnv.GetTxMinFee (sampleTx 0).nTxType sampleSubmitEnv.chainActiveHeight
        ≤ (sampleCommitted 10000).llFees ∧
      ∃ account, sampleSubmitEnv.pAccountCache.GetAccount (.keyId ⟨1⟩) = some account ∧
        account.IsRegistered = true ∧
        (sampleCommitted 10000).llFees ≤ account.GetFreeBcoins :=
  ⟨by decide,
   SubmitTx_commit_fee_floor_and_balance sampleSubmitEnv (.keyId ⟨1⟩) (sampleTx 0)
     (sampleCommitted 10000) (by decide)⟩

/-- C2: when the declared fee is 0, every transaction `SubmitTx` hands to `CommitTx`
carries the fee `GetTxMinFee(tx.nTxType, chainActive.Height())`, and so does the
caller's transaction object afterwards. -/
theorem SubmitTx_zero_fee_autofill (env : SubmitEnv) (userId : CUserID)
    (tx committed : CBaseTx) (hzero : tx.llFees = 0)
    (h : WalletCall.CommitTx committed ∈ (SubmitTx env userId tx).calls) :
    committed.llFees = env.GetTxMinFee tx.nTxType env.chainActiveHeight ∧
      (SubmitTx env userId tx).tx = committed := by
  unfold SubmitTx at h ⊢
  simp only [hzero, if_true] at h ⊢
  refine ⟨(SubmitTx.checkAccount_commit env userId _ committed h).1, ?_⟩
  revert h
  unfold SubmitTx.checkAccount
  split
  next account hacc =>
    split
    · split
      · simp
      · unfold SubmitTx.signAndCommit
        split
        · simp
        · dsimp only
          split
          · simp
          · split
            · simp
            · split
              · simp
              · split
                · simp
                · split <;> simp <;> intro h <;> exact h.symm
    · simp
  · simp

/-- Witness of C2: a zero-fee transfer in `sampleSubmitEnv` is committed with fee 10000. -/
theorem SubmitTx_zero_fee_autofill_witness :
    (sampleTx 0).llFees = 0 ∧
      WalletCall.CommitTx (sampleCommitted 10000)
        ∈ (SubmitTx sampleSubmitEnv (.keyId ⟨1⟩) (sampleTx 0)).calls ∧
      (sampleCommitted 10000).llFees = 10000 ∧
      (SubmitTx sampleSubmitEnv (.keyId ⟨1⟩) (sampleTx 0)).tx = sampleCommitted 10000 :=
  ⟨rfl, by decide,
   SubmitTx_zero_fee_autofill sampleSubmitEnv (.keyId ⟨1⟩) (sampleTx 0)
     (sampleCommitted 10000) rfl (by decide)⟩

/-- C3, the claim fails for a declared fee of 0: in `sampleSubmitEnv` the minimum fee is
10000, the fee 0 is strictly below it, and yet `SubmitTx` succeeds after calling
`Sign` (the fee is filled in instead). -/
theorem SubmitTx_fee_below_min_counterexample :
    (sampleTx 0).llFees
        < sampleSubmitEnv.GetTxMinFee (sampleTx 0).nTxType sampleSubmitEnv.chainActiveHeight ∧
      (SubmitTx sampleSubmitEnv (.keyId ⟨1⟩) (sampleTx 0)).result
        = .ok [("txid", .str "c0ffee")] ∧
      WalletCall.Sign ⟨1⟩ 10001 ∈ (SubmitTx sampleSubmitEnv (.keyId ⟨1⟩) (sampleTx 0)).calls :=
  ⟨by decide, rfl, by decide⟩

/-- C3 as amended: a declared fee that is not 0 and strictly below
`GetTxMinFee(tx.nTxType, chainActive.Height())` makes `SubmitTx` throw the
fee-too-small error; no wallet call is made, so `Sign` is never called, and the
transaction is left as it was. -/
theorem SubmitTx_nonzero_fee_below_min (env : SubmitEnv) (userId : CUserID) (tx : CBaseTx)
    (hnonzero : tx.llFees ≠ 0)
    (hlow : tx.llFees < env.GetTxMinFee tx.nTxType env.chainActiveHeight) :
    (SubmitTx env userId tx).result
        = .rpcError .RPC_WALLET_ERROR
            (feeTooSmallMessage tx.llFees
              (env.GetTxMinFee tx.nTxType env.chainActiveHeight)) ∧
      (SubmitTx env userId tx).calls = [] ∧
      (∀ keyId hash, WalletCall.Sign keyId hash ∉ (SubmitTx env userId tx).calls) ∧
      (SubmitTx env userId tx).tx = tx := by
  unfold SubmitTx
  simp [hnonzero, hlow]

/-- Witness of the amended C3: the fee 5 against the minimum 10000. -/
theorem SubmitTx_nonzero_fee_below_min_witness :
    (sampleTx 5).llFees ≠ 0 ∧
      (sampleTx 5).llFees
        < sampleSubmitEnv.GetTxMinFee (sampleTx 5).nTxType sampleSubmitEnv.chainActiveHeight ∧
      (SubmitTx sampleSubmitEnv (.keyId ⟨1⟩) (sampleTx 5)).result
        = .rpcError .RPC_WALLET_ERROR (feeTooSmallMessage 5 10000) ∧
      (SubmitTx sampleSubmitEnv (.keyId ⟨1⟩) (sampleTx 5)).calls = [] :=
  have h := SubmitTx_nonzero_fee_below_min sampleSubmitEnv (.keyId ⟨1⟩) (sampleTx 5)
    (by decide) (by decide)
  ⟨by decide, by decide, h.1, h.2.1⟩

/-- C4, the claim fails in two ways.  The account of key id 2 holds 0, less than the
fee 20000, but is not registered: the error is the unregistered one.  The account of
key id 3 is registered and holds 3, less than the fee 5, but 5 is below the minimum
fee: the error is the fee one. -/
theorem SubmitTx_balance_below_fee_counterexample :
    (sampleCache.GetAccount (.keyId ⟨2⟩) = some (sampleAccount false 0) ∧
      (sampleAccount false 0).GetFreeBcoins < (sampleTx 20000).llFees ∧
      (SubmitTx sampleSubmitEnv (.keyId ⟨2⟩) (sampleTx 20000)).result
        = .rpcError .RPC_WALLET_ERROR "Account is unregistered") ∧
    (sampleCache.GetAccount (.keyId ⟨3⟩) = some (sampleAccount true 3) ∧
      (sampleAccount true 3).GetFreeBcoins < (sampleTx 5).llFees ∧
      (SubmitTx sampleSubmitEnv (.keyId ⟨3⟩) (sampleTx 5)).result
        = .rpcError .RPC_WALLET_ERROR "Tx fee given is too small: 5 < 10000") :=
  ⟨⟨by decide, by decide, rfl⟩, ⟨by decide, by decide, rfl⟩⟩

/-- C4 as amended: when the transaction passes the fee check and the account cache
resolves the sender to a registered account whose free balance is less than the fee
(the minimum fee when 0 was declared), `SubmitTx` throws the insufficient-balance
error and makes no wallet call, so `CommitTx` is never called. -/
theorem SubmitTx_insufficient_balance (env : SubmitEnv) (userId : CUserID) (tx : CBaseTx)
    (account : CAccount)
    (hfee : tx.llFees = 0 ∨ env.GetTxMinFee tx.nTxType env.chainActiveHeight ≤ tx.llFees)
    (hacc : env.pAccountCache.GetAccount userId = some account)
    (hreg : account.IsRegistered = true)
    (hbal : account.GetFreeBcoins <
      (if tx.llFees = 0 then env.GetTxMinFee tx.nTxType env.chainActiveHeight
       else tx.llFees)) :
    (SubmitTx env userId tx).result
        = .rpcError .RPC_WALLET_ERROR "Account balance is insufficient" ∧
      (SubmitTx env userId tx).calls = [] ∧
      (∀ c, WalletCall.CommitTx c ∉ (SubmitTx env userId tx).calls) := by
  unfold SubmitTx
  dsimp only
  by_cases hz : tx.llFees = 0
  · rw [if_pos hz] at hbal
    rw [if_pos hz, SubmitTx.checkAccount_insufficient env userId _ account hacc hreg hbal]
    simp
  · rw [if_neg hz] at hbal
    have hge : ¬ tx.llFees < env.GetTxMinFee tx.nTxType env.chainActiveHeight := by
      rcases hfee with h | h
      · exact absurd h hz
      · omega
    rw [if_neg hz, if_neg hge,
      SubmitTx.checkAccount_insufficient env userId tx account hacc hreg hbal]
    simp

/-- Witness of the amended C4: the registered account of key id 3 holds 3 and the
declared fee is 20000. -/
theorem SubmitTx_insufficient_balance_witness :
    ((sampleTx 20000).llFees = 0 ∨
        sampleSubmitEnv.GetTxMinFee (sampleTx 20000).nTxType
          sampleSubmitEnv.chainActiveHeight ≤ (sampleTx 20000).llFees) ∧
      sampleSubmitEnv.pAccountCache.GetAccount (.keyId ⟨3⟩) = some (sampleAccount true 3) ∧
      (SubmitTx sampleSubmitEnv (.keyId ⟨3⟩) (sampleTx 20000)).result
        = .rpcError .RPC_WALLET_ERROR "Account balance is insufficient" ∧
      (SubmitTx sampleSubmitEnv (.keyId ⟨3⟩) (sampleTx 20000)).calls = [] :=
  have h := SubmitTx_insufficient_balance sampleSubmitEnv (.keyId ⟨3⟩) (sampleTx 20000)
    (sampleAccount true 3) (Or.inr (by decide)) (by decide) rfl (by decide)
  ⟨Or.inr (by decide), by decide, h.1, h.2.1⟩

/-- C5: when the transaction passes the fee check (the declared fee is 0 or at least the
minimum fee) and the account cache has no account for the sender, or has one that is not
registered, `SubmitTx` throws the account-unregistered error and makes no wallet call:
neither `Sign` nor `CommitTx` is called. -/
theorem SubmitTx_unregistered_account (env : SubmitEnv) (userId : CUserID) (tx : CBaseTx)
    (hfee : tx.llFees = 0 ∨ env.GetTxMinFee tx.nTxType env.chainActiveHeight ≤ tx.llFees)
    (hacc : env.pAccountCache.GetAccount userId = none ∨
      ∃ account, env.pAccountCache.GetAccount userId = some account ∧
        account.IsRegistered = false) :
    (SubmitTx env userId tx).result
        = .rpcError .RPC_WALLET_ERROR "Account is unregistered" ∧
      (SubmitTx env userId tx).calls = [] ∧
      (∀ keyId hash, WalletCall.Sign keyId hash ∉ (SubmitTx env userId tx).calls) ∧
      (∀ c, WalletCall.CommitTx c ∉ (SubmitTx env userId tx).calls) := by
  have hunreg : ∀ account, env.pAccountCache.GetAccount userId = some account →
      account.IsRegistered = false := by
    intro account h
    rcases hacc with hnone | ⟨a, ha, hr⟩
    · rw [hnone] at h
      cases h
    · rw [ha] at h
      cases h
      exact hr
  unfold SubmitTx
  dsimp only
  by_cases hz : tx.llFees = 0
  · rw [if_pos hz]
    obtain ⟨h1, h2⟩ := SubmitTx.checkAccount_unregistered env userId
      { tx with llFees := env.GetTxMinFee tx.nTxType env.chainActiveHeight } hunreg
    rw [h1, h2]
    simp
  · have hge : ¬ tx.llFees < env.GetTxMinFee tx.nTxType env.chainActiveHeight := by
      rcases hfee with h | h
      · exact absurd h hz
      · omega
    rw [if_neg hz, if_neg hge]
    obtain ⟨h1, h2⟩ := SubmitTx.checkAccount_unregistered env userId tx hunreg
    rw [h1, h2]
    simp

/-- Witness of C5: key id 2 has an unregistered account, key id 9 has none. -/
theorem SubmitTx_unregistered_account_witness :
    (sampleSubmitEnv.pAccountCache.GetAccount (.keyId ⟨9⟩) = none ∧
      (SubmitTx sampleSubmitEnv (.keyId ⟨9⟩) (sampleTx 0)).result
        = .rpcError .RPC_WALLET_ERROR "Account is unregistered" ∧
      (SubmitTx sampleSubmitEnv (.keyId ⟨9⟩) (sampleTx 0)).calls = []) ∧
    (sampleSubmitEnv.pAccountCache.GetAccount (.keyId ⟨2⟩) = some (sampleAccount false 0) ∧
      (SubmitTx sampleSubmitEnv (.keyId ⟨2⟩) (sampleTx 20000)).result
        = .rpcError .RPC_WALLET_ERROR "Account is unregistered" ∧
      (SubmitTx sampleSubmitEnv (.keyId ⟨2⟩) (sampleTx 20000)).calls = []) :=
  have h9 := SubmitTx_unregistered_account sampleSubmitEnv (.keyId ⟨9⟩) (sampleTx 0)
    (Or.inl rfl) (Or.inl (by decide))
  have h2 := SubmitTx_unregistered_account sampleSubmitEnv (.keyId ⟨2⟩) (sampleTx 20000)
    (Or.inr (by decide)) (Or.inr ⟨sampleAccount false 0, by decide, rfl⟩)
  ⟨⟨by decide, h9.1, h9.2.1⟩, ⟨by decide, h2.1, h2.2.1⟩⟩

/-! ## Properties of `GetTxDetailJSON` -/

/-- A cast to `int` keeps a value that fits 32 bits. -/
theorem toInt32_of_fits (x : Int) (hlo : -2147483648 ≤ x) (hhi : x < 2147483648) :
    toInt32 x = x := by
  unfold toInt32
  omega

/-- A hit of the genesis loop is the first index, from the start index on, whose id is
the one looked for, and carries the transaction stored there. -/
theorem GetTxDetailJSON.scanGenesis_some (getTxid : Nat → uint256) (txid : uint256)
    (vptx : List CBaseTx) (start j : Nat) (tx : CBaseTx)
    (h : GetTxDetailJSON.scanGenesis getTxid txid start vptx = some (j, tx)) :
    start ≤ j ∧ vptx[j - start]? = some tx ∧ getTxid j = txid ∧
      ∀ m, start ≤ m → m < j → getTxid m ≠ txid := by
  induction vptx generalizing start with
  | nil => simp [GetTxDetailJSON.scanGenesis] at h
  | cons first rest ih =>
    unfold GetTxDetailJSON.scanGenesis at h
    split at h
    next heq =>
      simp only [Option.some.injEq, Prod.mk.injEq] at h
      obtain ⟨h1, h2⟩ := h
      subst h1 h2
      refine ⟨Nat.le_refl _, by simp, heq.symm, ?_⟩
      intro m hm1 hm2
      omega
    next hne =>
      obtain ⟨h1, h2, h3, h4⟩ := ih (start + 1) h
      refine ⟨by omega, ?_, h3, ?_⟩
      · have hsplit : j - start = (j - (start + 1)) + 1 := by omega
        rw [hsplit, List.getElem?_cons_succ]
        exact h2
      · intro m hm1 hm2
        by_cases hm : m = start
        · subst hm
          exact fun hcontra => hne hcontra.symm
        · exact h4 m (by omega) hm2

/-- The genesis loop finds nothing exactly when no index of the list has the id. -/
theorem GetTxDetailJSON.scanGenesis_none (getTxid : Nat → uint256) (txid : uint256)
    (vptx : List CBaseTx) (start : Nat) :
    GetTxDetailJSON.scanGenesis getTxid txid start vptx = none ↔
      ∀ m, m < vptx.length → getTxid (start + m) ≠ txid := by
  induction vptx generalizing start with
  | nil => simp [GetTxDetailJSON.scanGenesis]
  | cons first rest ih =>
    unfold GetTxDetailJSON.scanGenesis
    split
    next heq =>
      simp only [reduceCtorEq, false_iff, not_forall]
      exact ⟨0, by simp, by simpa using heq.symm⟩
    next hne =>
      rw [ih (start + 1)]
      constructor
      · intro h m hm
        cases m with
        | zero => exact fun hcontra => hne hcontra.symm
        | succ k =>
          have := h k (by simpa using hm)
          rwa [show start + (k + 1) = start + 1 + k by omega]
      · intro h m hm
        have := h (m + 1) (by simpa using hm)
        rwa [show start + (m + 1) = start + 1 + m by omega] at this

/-- C6: when the genesis block (whose merkle root passes the assertion of line 89) has
a transaction with the id `txid` and the pending pool holds `txid` too, `GetTxDetailJSON`
returns the record built from the genesis transaction (the first one with that id):
its `ToJson` fields followed by `block_hash` = the genesis block hash,
`confirmed_height` = 0, `confirmed_time` = the genesis block time as the `int` the source
casts it to (the time itself when it fits an `int`) and `rawtx`.  The result is the same
for every content of the pending pool. -/
theorem GetTxDetailJSON_genesis_before_mempool (env : ChainEnv) (txid : uint256)
    (hroot : env.genesisblock.GetMerkleRootHash = env.BuildMerkleTree env.genesisblock)
    (i : Nat) (hi : i < env.genesisblock.vptx.length)
    (hid : env.GetTxid env.genesisblock i = txid)
    (pooled : CBaseTx) (_hpool : env.mempoolLookup txid = some pooled) :
    ∃ j tx, j ≤ i ∧ env.genesisblock.vptx[j]? = some tx ∧
      env.GetTxid env.genesisblock j = txid ∧
      GetTxDetailJSON env txid = .ok (env.ToJson tx ++
        [("block_hash", .str (env.GetHex env.GetGenesisBlockHash)),
         ("confirmed_height", .int 0),
         ("confirmed_time", .int (toInt32 env.genesisblock.GetTime)),
         ("rawtx", .str (HexStr (env.Serialize tx)))]) ∧
      (-2147483648 ≤ env.genesisblock.GetTime → env.genesisblock.GetTime < 2147483648 →
        toInt32 env.genesisblock.GetTime = env.genesisblock.GetTime) ∧
      ∀ lookup, GetTxDetailJSON { env with mempoolLookup := lookup } txid
        = GetTxDetailJSON env txid := by
  cases hscan : GetTxDetailJSON.scanGenesis (env.GetTxid env.genesisblock) txid 0
      env.genesisblock.vptx with
  | none =>
    rw [GetTxDetailJSON.scanGenesis_none] at hscan
    exact absurd (by simpa using hid) (hscan i hi)
  | some hit =>
    obtain ⟨j, tx⟩ := hit
    obtain ⟨_, h2, h3, h4⟩ := GetTxDetailJSON.scanGenesis_some _ _ _ _ _ _ hscan
    refine ⟨j, tx, ?_, by simpa using h2, h3, ?_, toInt32_of_fits _, ?_⟩
    · by_contra hlt
      exact h4 i (Nat.zero_le _) (by omega) hid
    · unfold GetTxDetailJSON
      simp only [hroot, ne_eq, not_true_eq_false, if_false, hscan]
      rfl
    · intro lookup
      unfold GetTxDetailJSON
      simp only [hroot, ne_eq, not_true_eq_false, if_false, hscan]
      rfl

/-- Witness of C6: the id 500 is in the genesis block of `sampleChain` and in its pool. -/
theorem GetTxDetailJSON_genesis_before_mempool_witness :
    sampleChain.GetTxid sampleChain.genesisblock 0 = 500 ∧
      sampleChain.mempoolLookup 500 = some (sampleTx 3) ∧
      ∃ j tx, j ≤ 0 ∧ sampleChain.genesisblock.vptx[j]? = some tx ∧
        sampleChain.GetTxid sampleChain.genesisblock j = 500 ∧
        GetTxDetailJSON sampleChain 500 = .ok (sampleChain.ToJson tx ++
          [("block_hash", .str (sampleChain.GetHex sampleChain.GetGenesisBlockHash)),
           ("confirmed_height", .int 0),
           ("confirmed_time", .int (toInt32 sampleChain.genesisblock.GetTime)),
           ("rawtx", .str (HexStr (sampleChain.Serialize tx)))]) ∧
        (-2147483648 ≤ sampleChain.genesisblock.GetTime →
          sampleChain.genesisblock.GetTime < 2147483648 →
          toInt32 sampleChain.genesisblock.GetTime = sampleChain.genesisblock.GetTime) ∧
        ∀ lookup, GetTxDetailJSON { sampleChain with mempoolLookup := lookup } 500
          = GetTxDetailJSON sampleChain 500 :=
  ⟨rfl, rfl,
   GetTxDetailJSON_genesis_before_mempool sampleChain 500 rfl 0 (by decide) rfl
     (sampleTx 3) rfl⟩

/-- C7: when `txid` is the id of no transaction of the genesis block, the transaction
index has no position for it and the pending pool does not hold it, `GetTxDetailJSON`
returns the empty record; it does not throw. -/
theorem GetTxDetailJSON_unknown_txid (env : ChainEnv) (txid : uint256)
    (hroot : env.genesisblock.GetMerkleRootHash = env.BuildMerkleTree env.genesisblock)
    (hgenesis : ∀ i, i < env.genesisblock.vptx.length →
      env.GetTxid env.genesisblock i ≠ txid)
    (hindex : env.ReadTxIndex txid = none)
    (hpool : env.mempoolLookup txid = none) :
    GetTxDetailJSON env txid = .ok [] := by
  have hscan : GetTxDetailJSON.scanGenesis (env.GetTxid env.genesisblock) txid 0
      env.genesisblock.vptx = none := by
    rw [GetTxDetailJSON.scanGenesis_none]
    intro m hm
    simpa using hgenesis m hm
  unfold GetTxDetailJSON
  simp only [hroot, ne_eq, not_true_eq_false, if_false, hscan, hindex,
    GetTxDetailJSON.fromMempool, hpool, ite_self]

/-- Witness of C7: the id 7 is unknown to `sampleChain`. -/
theorem GetTxDetailJSON_unknown_txid_witness :
    sampleChain.ReadTxIndex 7 = none ∧ sampleChain.mempoolLookup 7 = none ∧
      GetTxDetailJSON sampleChain 7 = .ok [] :=
  ⟨by decide, by decide,
   GetTxDetailJSON_unknown_txid sampleChain 7 rfl (by decide) (by decide) (by decide)⟩

/-- C8: when `txid` is not in the genesis block, indexing is enabled and the index has a
position for `txid`, a failure of reading the block header or of deserializing the
transaction at that position makes `GetTxDetailJSON` throw the `runtime_error` of line
130: the outcome is not the empty record, and it is the same for every content of the
pending pool, which is not consulted. -/
theorem GetTxDetailJSON_index_read_failure (env : ChainEnv) (txid : uint256)
    (postx : CDiskTxPos)
    (hroot : env.genesisblock.GetMerkleRootHash = env.BuildMerkleTree env.genesisblock)
    (hgenesis : ∀ i, i < env.genesisblock.vptx.length →
      env.GetTxid env.genesisblock i ≠ txid)
    (henabled : env.IsTxIndex = true)
    (hindex : env.ReadTxIndex txid = some postx)
    (hfail : (∃ what, env.ReadBlockHeader postx = .error what) ∨
      (∃ what, env.ReadTx postx = .error what)) :
    (∃ what, GetTxDetailJSON env txid = .runtimeError (deserializeErrorMessage what)) ∧
      GetTxDetailJSON env txid ≠ .ok [] ∧
      ∀ lookup, GetTxDetailJSON { env with mempoolLookup := lookup } txid
        = GetTxDetailJSON env txid := by
  have hscan : GetTxDetailJSON.scanGenesis (env.GetTxid env.genesisblock) txid 0
      env.genesisblock.vptx = none := by
    rw [GetTxDetailJSON.scanGenesis_none]
    intro m hm
    simpa using hgenesis m hm
  have hrun : GetTxDetailJSON env txid = GetTxDetailJSON.readIndexed env postx := by
    unfold GetTxDetailJSON
    simp only [hroot, ne_eq, not_true_eq_false, if_false, hscan, henabled, if_true, hindex]
  have herr : ∃ what, GetTxDetailJSON.readIndexed env postx
      = .runtimeError (deserializeErrorMessage what) := by
    unfold GetTxDetailJSON.readIndexed
    rcases hfail with ⟨what, hw⟩ | ⟨what, hw⟩
    · exact ⟨what, by simp only [hw]⟩
    · cases hheader : env.ReadBlockHeader postx with
      | error w => exact ⟨w, rfl⟩
      | ok header => exact ⟨what, by simp only [hw]⟩
  obtain ⟨what, hwhat⟩ := herr
  refine ⟨⟨what, hrun.trans hwhat⟩, ?_, ?_⟩
  · rw [hrun, hwhat]
    exact fun h => Outcome.noConfusion h
  · intro lookup
    rw [hrun]
    unfold GetTxDetailJSON
    simp only [hroot, ne_eq, not_true_eq_false, if_false, hscan, henabled, if_true, hindex]
    rfl

/-- Witness of C8: the block file of the indexed id 900 of `sampleChain` cannot be read. -/
theorem GetTxDetailJSON_index_read_failure_witness :
    sampleChain.IsTxIndex = true ∧ sampleChain.ReadTxIndex 900 = some ⟨0, 10, 20⟩ ∧
      sampleChain.ReadBlockHeader ⟨0, 10, 20⟩
        = .error "CAutoFile::read : file handle is NULL" ∧
      (∃ what, GetTxDetailJSON sampleChain 900
        = .runtimeError (deserializeErrorMessage what)) ∧
      GetTxDetailJSON sampleChain 900 ≠ .ok [] :=
  have h := GetTxDetailJSON_index_read_failure sampleChain 900 ⟨0, 10, 20⟩ rfl
    (by decide) rfl (by decide)
    (Or.inl ⟨"CAutoFile::read : file handle is NULL", rfl⟩)
  ⟨rfl, by decide, rfl, h.1, h.2.1⟩

/-! ## Rounding to `double` -/

/-- An integer is rounded to itself. -/
theorem roundHalfEven_intCast (n : ℤ) : roundHalfEven (n : ℚ) = n := by
  unfold roundHalfEven
  simp

/-- Rounding to the nearest integer moves a value by at most one half. -/
theorem abs_roundHalfEven_sub_le (x : ℚ) : |(roundHalfEven x : ℚ) - x| ≤ 1 / 2 := by
  have h1 : (⌊x⌋ : ℚ) ≤ x := Int.floor_le x
  have h2 : x < ⌊x⌋ + 1 := Int.lt_floor_add_one x
  unfold roundHalfEven
  split_ifs with ha hb hc
  · rw [abs_le]; constructor <;> linarith
  · push_cast; rw [abs_le]; constructor <;> linarith
  · rw [abs_le]; constructor <;> linarith
  · push_cast; rw [abs_le]; constructor <;> linarith

/-- Rounding keeps a value between the integers that enclose it. -/
theorem roundHalfEven_mono_bounds (x : ℚ) (lo hi : ℤ) (hlo : (lo : ℚ) ≤ x) (hhi : x ≤ hi) :
    lo ≤ roundHalfEven x ∧ roundHalfEven x ≤ hi := by
  have h1 : lo ≤ ⌊x⌋ := Int.le_floor.mpr hlo
  have h2 : (⌊x⌋ : ℚ) ≤ x := Int.floor_le x
  have h3 : ⌊x⌋ ≤ hi := by exact_mod_cast h2.trans hhi
  unfold roundHalfEven
  split_ifs with ha hb hc
  · exact ⟨h1, h3⟩
  · refine ⟨by omega, ?_⟩
    by_contra hcon
    have : ⌊x⌋ = hi := by omega
    rw [this] at hb
    linarith
  · exact ⟨h1, h3⟩
  · refine ⟨by omega, ?_⟩
    by_contra hcon
    have : ⌊x⌋ = hi := by omega
    rw [this] at ha
    have : x - hi ≤ 0 := by linarith
    linarith

/-- The scaled value lies in the 53 bit range. -/
theorem scaled_range (q : ℚ) (hq : 0 < q) :
    (2 : ℚ) ^ (52 : ℕ) ≤ q / (2 : ℚ) ^ ulpExponent q ∧
      q / (2 : ℚ) ^ ulpExponent q < (2 : ℚ) ^ (53 : ℕ) := by
  have hpos : (0 : ℚ) < (2 : ℚ) ^ ulpExponent q := zpow_pos (by norm_num) _
  have habs : |q| = q := abs_of_pos hq
  have hlo : ((2 : ℕ) : ℚ) ^ Int.log 2 q ≤ q := Int.zpow_log_le_self (by norm_num) hq
  have hhi : q < ((2 : ℕ) : ℚ) ^ (Int.log 2 q + 1) := Int.lt_zpow_succ_log_self (by norm_num) q
  push_cast at hlo hhi
  have e1 : (2 : ℚ) ^ (52 : ℕ) * (2 : ℚ) ^ ulpExponent q = (2 : ℚ) ^ Int.log 2 q := by
    unfold ulpExponent
    rw [habs, ← zpow_natCast, ← zpow_add₀ (by norm_num : (2 : ℚ) ≠ 0)]
    congr 1
    push_cast
    ring
  have e2 : (2 : ℚ) ^ (53 : ℕ) * (2 : ℚ) ^ ulpExponent q = (2 : ℚ) ^ (Int.log 2 q + 1) := by
    unfold ulpExponent
    rw [habs, ← zpow_natCast, ← zpow_add₀ (by norm_num : (2 : ℚ) ≠ 0)]
    congr 1
    push_cast
    ring
  constructor
  · rw [le_div_iff₀ hpos, e1]
    exact hlo
  · rw [div_lt_iff₀ hpos, e2]
    exact hhi

/-- Half an ulp is at most `q / 2^53`. -/
theorem half_ulp_le (q : ℚ) (hq : 0 < q) :
    (2 : ℚ) ^ ulpExponent q / 2 ≤ q / (2 : ℚ) ^ (53 : ℕ) := by
  have hpos : (0 : ℚ) < (2 : ℚ) ^ ulpExponent q := zpow_pos (by norm_num) _
  have h := (scaled_range q hq).1
  rw [le_div_iff₀ hpos] at h
  rw [le_div_iff₀ (by positivity)]
  have : (2 : ℚ) ^ (53 : ℕ) = 2 * (2 : ℚ) ^ (52 : ℕ) := by norm_num
  rw [this]
  linarith

/-- Rounding to `double` has a relative error of at most `2^-53`. -/
theorem roundDouble_close (q : ℚ) (hq : 0 < q) :
    |roundDouble q - q| ≤ q / (2 : ℚ) ^ (53 : ℕ) := by
  have hpos : (0 : ℚ) < (2 : ℚ) ^ ulpExponent q := zpow_pos (by norm_num) _
  have hround := abs_roundHalfEven_sub_le (q / (2 : ℚ) ^ ulpExponent q)
  have hrew : roundDouble q - q =
      ((roundHalfEven (q / (2 : ℚ) ^ ulpExponent q) : ℚ) - q / (2 : ℚ) ^ ulpExponent q) *
        (2 : ℚ) ^ ulpExponent q := by
    unfold roundDouble
    rw [if_neg hq.ne']
    field_simp
  rw [hrew, abs_mul, abs_of_pos hpos]
  calc _ ≤ 1 / 2 * (2 : ℚ) ^ ulpExponent q := by
        exact mul_le_mul_of_nonneg_right hround hpos.le
    _ = (2 : ℚ) ^ ulpExponent q / 2 := by ring
    _ ≤ _ := half_ulp_le q hq

/-- The rounded value is a 53 bit significand times the unit in the last place. -/
theorem roundDouble_significand (q : ℚ) (hq : 0 < q) :
    ∃ m : ℕ, 2 ^ 52 ≤ m ∧ m ≤ 2 ^ 53 ∧ roundDouble q = (m : ℚ) * (2 : ℚ) ^ ulpExponent q := by
  obtain ⟨hlo, hhi⟩ := scaled_range q hq
  have hb := roundHalfEven_mono_bounds (q / (2 : ℚ) ^ ulpExponent q) (2 ^ 52) (2 ^ 53)
    (by push_cast; exact hlo) (by push_cast; exact hhi.le)
  refine ⟨(roundHalfEven (q / (2 : ℚ) ^ ulpExponent q)).toNat, ?_, ?_, ?_⟩
  · omega
  · omega
  · unfold roundDouble
    rw [if_neg hq.ne']
    congr 1
    have : ((roundHalfEven (q / (2 : ℚ) ^ ulpExponent q)).toNat : ℤ)
        = roundHalfEven (q / (2 : ℚ) ^ ulpExponent q) := Int.toNat_of_nonneg (by omega)
    exact_mod_cast this.symm

/-- A value with a 53 bit significand is a `double` and is rounded to itself. -/
theorem roundDouble_exact (m : ℕ) (k : ℤ) (hm : m < 2 ^ 53) :
    roundDouble ((m : ℚ) * (2 : ℚ) ^ k) = (m : ℚ) * (2 : ℚ) ^ k := by
  by_cases hm0 : m = 0
  · subst hm0
    simp [roundDouble]
  have hmpos : (0 : ℚ) < m := by exact_mod_cast Nat.pos_of_ne_zero hm0
  have hkpos : (0 : ℚ) < (2 : ℚ) ^ k := zpow_pos (by norm_num) _
  have hq : (0 : ℚ) < (m : ℚ) * (2 : ℚ) ^ k := mul_pos hmpos hkpos
  set q := (m : ℚ) * (2 : ℚ) ^ k with hqdef
  have hpos : (0 : ℚ) < (2 : ℚ) ^ ulpExponent q := zpow_pos (by norm_num) _
  have hle : ulpExponent q ≤ k := by
    by_contra hcon
    push_neg at hcon
    have h1 := (scaled_range q hq).1
    rw [le_div_iff₀ hpos] at h1
    have h2 : (2 : ℚ) ^ (k + 1) ≤ (2 : ℚ) ^ ulpExponent q :=
      zpow_le_zpow_right₀ (by norm_num) (by omega)
    have h3 : (2 : ℚ) ^ (k + 1) = 2 * (2 : ℚ) ^ k := by
      rw [zpow_add₀ (by norm_num : (2 : ℚ) ≠ 0)]; ring
    have h4 : (m : ℚ) < (2 : ℚ) ^ (53 : ℕ) := by exact_mod_cast hm
    have h5 : (2 : ℚ) ^ (53 : ℕ) = 2 * (2 : ℚ) ^ (52 : ℕ) := by norm_num
    have h52 : (0 : ℚ) < (2 : ℚ) ^ (52 : ℕ) := by positivity
    nlinarith
  obtain ⟨d, hd⟩ : ∃ d : ℕ, k = ulpExponent q + d := ⟨(k - ulpExponent q).toNat, by omega⟩
  have hscaled : q / (2 : ℚ) ^ ulpExponent q = ((m * 2 ^ d : ℕ) : ℤ) := by
    rw [div_eq_iff hpos.ne']
    rw [hqdef]
    conv_lhs => rw [hd]
    rw [zpow_add₀ (by norm_num : (2 : ℚ) ≠ 0), zpow_natCast]
    push_cast
    ring
  unfold roundDouble
  rw [if_neg hq.ne', hscaled, roundHalfEven_intCast, ← hscaled]
  field_simp

/-- A natural number below `2^53` converts to `double` exactly. -/
theorem roundDouble_natCast (n : ℕ) (hn : n < 2 ^ 53) : roundDouble (n : ℚ) = n := by
  have := roundDouble_exact n 0 hn
  simpa using this

/-- Rounding keeps a value non-negative. -/
theorem roundDouble_nonneg (q : ℚ) (hq : 0 ≤ q) : 0 ≤ roundDouble q := by
  rcases hq.eq_or_lt with h | h
  · rw [← h]; simp [roundDouble]
  · obtain ⟨m, _, _, hm⟩ := roundDouble_significand q h
    rw [hm]
    positivity

/-- When the value is below `2^53` and the quotient by `COIN` is a `double`, the amount
is the quotient itself. -/
theorem doubleAmount_exact (value : ℕ) (hvalue : value < 2 ^ 53) (m : ℕ) (k : ℤ)
    (hm : m < 2 ^ 53) (hquot : (value : ℚ) / (COIN : ℚ) = (m : ℚ) * (2 : ℚ) ^ k) :
    doubleAmount value = (value : ℚ) / (COIN : ℚ) := by
  unfold doubleAmount
  rw [roundDouble_natCast value hvalue, hquot, roundDouble_exact m k hm]

/-- For a value below `2^53` the amount is within half a unit in the last place of the
quotient by `COIN`. -/
theorem doubleAmount_nearest (value : ℕ) (hvalue : value < 2 ^ 53) :
    |doubleAmount value - (value : ℚ) / (COIN : ℚ)|
      ≤ (value : ℚ) / (COIN : ℚ) / (2 : ℚ) ^ (53 : ℕ) := by
  unfold doubleAmount
  rw [roundDouble_natCast value hvalue]
  by_cases h0 : value = 0
  · subst h0
    simp [roundDouble]
  · apply roundDouble_close
    have : (0 : ℚ) < value := by exact_mod_cast Nat.pos_of_ne_zero h0
    have hc : (0 : ℚ) < (COIN : ℚ) := by norm_num [COIN]
    positivity

/-- The amount differs from the quotient by `COIN` by at most three parts in `2^53`,
the two roundings taken together. -/
theorem doubleAmount_close (value : ℕ) :
    |doubleAmount value - (value : ℚ) / (COIN : ℚ)|
      ≤ 3 * ((value : ℚ) / (COIN : ℚ)) / (2 : ℚ) ^ (53 : ℕ) := by
  by_cases h0 : value = 0
  · subst h0
    simp [doubleAmount, roundDouble]
  have hv : (0 : ℚ) < value := by exact_mod_cast Nat.pos_of_ne_zero h0
  have hc : (0 : ℚ) < (COIN : ℚ) := by norm_num [COIN]
  have h1 := roundDouble_close (value : ℚ) hv
  obtain ⟨m, hm1, _, hm⟩ := roundDouble_significand (value : ℚ) hv
  have hxpos : (0 : ℚ) < roundDouble (value : ℚ) := by
    rw [hm]
    have : (0 : ℚ) < m := by
      have : 0 < m := lt_of_lt_of_le (by norm_num) hm1
      exact_mod_cast this
    have := zpow_pos (by norm_num : (0 : ℚ) < 2) (ulpExponent (value : ℚ))
    positivity
  have h2 := roundDouble_close (roundDouble (value : ℚ) / (COIN : ℚ)) (div_pos hxpos hc)
  unfold doubleAmount
  set x := roundDouble (value : ℚ) with hx
  set d := roundDouble (x / (COIN : ℚ)) with hd
  have hu : (0 : ℚ) < (2 : ℚ) ^ (53 : ℕ) := by positivity
  rw [abs_le] at h1 h2 ⊢
  have hxv : x ≤ (value : ℚ) + (value : ℚ) / (2 : ℚ) ^ (53 : ℕ) := by linarith
  have hxv2 : x ≤ 2 * (value : ℚ) := by
    have : (value : ℚ) / (2 : ℚ) ^ (53 : ℕ) ≤ value := div_le_self hv.le (by norm_num)
    linarith
  have e1 : x / (COIN : ℚ) - (value : ℚ) / (COIN : ℚ) = (x - value) / (COIN : ℚ) := by ring
  have b1 : (x - value) / (COIN : ℚ) ≤ (value : ℚ) / (2 : ℚ) ^ (53 : ℕ) / (COIN : ℚ) :=
    div_le_div_of_nonneg_right h1.2 hc.le
  have b2 : -((value : ℚ) / (2 : ℚ) ^ (53 : ℕ)) / (COIN : ℚ) ≤ (x - value) / (COIN : ℚ) :=
    div_le_div_of_nonneg_right h1.1 hc.le
  have b3 : x / (COIN : ℚ) / (2 : ℚ) ^ (53 : ℕ)
      ≤ 2 * (value : ℚ) / (COIN : ℚ) / (2 : ℚ) ^ (53 : ℕ) := by
    apply div_le_div_of_nonneg_right _ hu.le
    exact div_le_div_of_nonneg_right hxv2 hc.le
  have e2 : 3 * ((value : ℚ) / (COIN : ℚ)) / (2 : ℚ) ^ (53 : ℕ)
      = 2 * (value : ℚ) / (COIN : ℚ) / (2 : ℚ) ^ (53 : ℕ)
        + (value : ℚ) / (2 : ℚ) ^ (53 : ℕ) / (COIN : ℚ) := by ring
  have e3 : -((value : ℚ) / (2 : ℚ) ^ (53 : ℕ)) / (COIN : ℚ)
      = -((value : ℚ) / (2 : ℚ) ^ (53 : ℕ) / (COIN : ℚ)) := by ring
  constructor <;> linarith

/-- The amount is a `double`: a significand of at most 53 bits times a power of two. -/
theorem doubleAmount_isDouble (value : ℕ) :
    ∃ m : ℕ, ∃ e : ℤ, m ≤ 2 ^ 53 ∧ doubleAmount value = (m : ℚ) * (2 : ℚ) ^ e := by
  by_cases h0 : value = 0
  · subst h0
    exact ⟨0, 0, by norm_num, by simp [doubleAmount, roundDouble]⟩
  have hv : (0 : ℚ) < value := by exact_mod_cast Nat.pos_of_ne_zero h0
  have hc : (0 : ℚ) < (COIN : ℚ) := by norm_num [COIN]
  obtain ⟨m, hm1, _, hm⟩ := roundDouble_significand (value : ℚ) hv
  have hxpos : (0 : ℚ) < roundDouble (value : ℚ) := by
    rw [hm]
    have : (0 : ℚ) < m := by
      have : 0 < m := lt_of_lt_of_le (by norm_num) hm1
      exact_mod_cast this
    have := zpow_pos (by norm_num : (0 : ℚ) < 2) (ulpExponent (value : ℚ))
    positivity
  obtain ⟨m', _, hm2, hm'⟩ :=
    roundDouble_significand (roundDouble (value : ℚ) / (COIN : ℚ)) (div_pos hxpos hc)
  exact ⟨m', _, hm2, hm'⟩

/-- A value strictly within one half of an integer is rounded to that integer. -/
theorem roundHalfEven_eq_of_near (x : ℚ) (n : ℤ) (hlo : (n : ℚ) - 1 / 2 < x)
    (hhi : x < (n : ℚ) + 1 / 2) : roundHalfEven x = n := by
  have h1 : (⌊x⌋ : ℚ) ≤ x := Int.floor_le x
  have h2 : x < ⌊x⌋ + 1 := Int.lt_floor_add_one x
  have h3 : n - 1 ≤ ⌊x⌋ := by
    apply Int.le_floor.mpr
    push_cast
    linarith
  have h4 : ⌊x⌋ ≤ n := by
    have : (⌊x⌋ : ℚ) < (n : ℚ) + 1 := by linarith
    have : ⌊x⌋ < n + 1 := by exact_mod_cast this
    omega
  have hcases : ⌊x⌋ = n ∨ ⌊x⌋ = n - 1 := by omega
  unfold roundHalfEven
  rcases hcases with h | h
  · rw [h]
    rw [if_pos (by linarith)]
  · rw [h]
    push_cast
    rw [if_neg (by linarith), if_pos (by linarith)]
    ring

/-- The unit in the last place of a value between `2^k` and `2^(k+1)`. -/
theorem ulpExponent_eq (q : ℚ) (k : ℤ) (hq : 0 < q) (hlo : (2 : ℚ) ^ k ≤ q)
    (hhi : q < (2 : ℚ) ^ (k + 1)) : ulpExponent q = k - 52 := by
  have h1 : k ≤ Int.log 2 q :=
    (Int.zpow_le_iff_le_log (by norm_num) hq).mp (by push_cast; exact hlo)
  have h2 : Int.log 2 q < k + 1 :=
    (Int.lt_zpow_iff_log_lt (by norm_num) hq).mp (by push_cast; exact hhi)
  unfold ulpExponent
  rw [abs_of_pos hq]
  omega

/-- One smallest unit gives the `double` nearest to `10^-8`, which is not `10^-8`. -/
theorem doubleAmount_one : doubleAmount 1 = 3022314549036573 / (2 : ℚ) ^ (78 : ℕ) := by
  have hone : roundDouble ((1 : ℕ) : ℚ) = ((1 : ℕ) : ℚ) := roundDouble_natCast 1 (by norm_num)
  have hq : (0 : ℚ) < ((1 : ℕ) : ℚ) / (COIN : ℚ) := by norm_num [COIN]
  have he : ulpExponent (((1 : ℕ) : ℚ) / (COIN : ℚ)) = -79 := by
    rw [ulpExponent_eq _ (-27) hq (by norm_num [COIN]) (by norm_num [COIN])]
    norm_num
  have hr : roundHalfEven (((1 : ℕ) : ℚ) / (COIN : ℚ) / (2 : ℚ) ^ (-79 : ℤ))
      = 6044629098073146 :=
    roundHalfEven_eq_of_near _ _ (by norm_num [COIN]) (by norm_num [COIN])
  unfold doubleAmount
  rw [hone]
  unfold roundDouble
  rw [if_neg hq.ne', he, hr]
  norm_num

/-- No integer is nearer to a value than the one it is rounded to. -/
theorem roundHalfEven_nearest (x : ℚ) (n : ℤ) :
    |(roundHalfEven x : ℚ) - x| ≤ |(n : ℚ) - x| := by
  have h1 : (⌊x⌋ : ℚ) ≤ x := Int.floor_le x
  have h2 : x < ⌊x⌋ + 1 := Int.lt_floor_add_one x
  have hn : n ≤ ⌊x⌋ ∨ ⌊x⌋ + 1 ≤ n := by omega
  have hn' : (n : ℚ) ≤ ⌊x⌋ ∨ ((⌊x⌋ : ℚ) + 1 ≤ n) := by
    rcases hn with h | h
    · left; exact_mod_cast h
    · right; exact_mod_cast h
  unfold roundHalfEven
  split_ifs with ha hb hc
  · rcases hn' with h | h
    · rw [abs_of_nonpos (by linarith), abs_of_nonpos (by linarith)]; linarith
    · rw [abs_of_nonpos (by linarith), abs_of_nonneg (by linarith)]; linarith
  · push_cast
    rcases hn' with h | h
    · rw [abs_of_nonneg (by linarith), abs_of_nonpos (by linarith)]; linarith
    · rw [abs_of_nonneg (by linarith), abs_of_nonneg (by linarith)]; linarith
  · rcases hn' with h | h
    · rw [abs_of_nonpos (by linarith), abs_of_nonpos (by linarith)]; linarith
    · rw [abs_of_nonpos (by linarith), abs_of_nonneg (by linarith)]; linarith
  · push_cast
    rcases hn' with h | h
    · rw [abs_of_nonneg (by linarith), abs_of_nonpos (by linarith)]; linarith
    · rw [abs_of_nonneg (by linarith), abs_of_nonneg (by linarith)]; linarith

/-- No 53 bit value is nearer to `q` than `roundDouble q`. -/
theorem roundDouble_nearest (q : ℚ) (hq : 0 < q) (m : ℕ) (k : ℤ) (hm : m < 2 ^ 53) :
    |roundDouble q - q| ≤ |(m : ℚ) * (2 : ℚ) ^ k - q| := by
  by_contra hcon
  push_neg at hcon
  have hpos : (0 : ℚ) < (2 : ℚ) ^ ulpExponent q := zpow_pos (by norm_num) _
  obtain ⟨hslo, -⟩ := scaled_range q hq
  set e := ulpExponent q with he
  set s := q / (2 : ℚ) ^ e with hs
  have hqs : q = s * (2 : ℚ) ^ e := by rw [hs]; field_simp
  have hrd : roundDouble q = (roundHalfEven s : ℚ) * (2 : ℚ) ^ e := by
    unfold roundDouble
    rw [if_neg hq.ne']
  have hround := abs_roundHalfEven_sub_le s
  set t := (m : ℚ) * (2 : ℚ) ^ k / (2 : ℚ) ^ e with ht
  have hdt : (m : ℚ) * (2 : ℚ) ^ k = t * (2 : ℚ) ^ e := by rw [ht]; field_simp
  have hscale : |t - s| < |(roundHalfEven s : ℚ) - s| := by
    have e1 : (m : ℚ) * (2 : ℚ) ^ k - q = (t - s) * (2 : ℚ) ^ e := by rw [hdt, hqs]; ring
    have e2 : roundDouble q - q = ((roundHalfEven s : ℚ) - s) * (2 : ℚ) ^ e := by
      rw [hrd]
      linear_combination -hqs
    rw [e1, e2, abs_mul, abs_mul, abs_of_pos hpos] at hcon
    exact lt_of_mul_lt_mul_right hcon hpos.le
  have htlo : (2 : ℚ) ^ (52 : ℕ) - 1 / 2 < t := by
    have := (abs_lt.mp (lt_of_lt_of_le hscale hround)).1
    linarith
  have hk : e ≤ k := by
    by_contra hlt
    push_neg at hlt
    obtain ⟨j, hj⟩ : ∃ j : ℕ, e = k + (j + 1) := ⟨(e - k - 1).toNat, by omega⟩
    have hkpos : (0 : ℚ) < (2 : ℚ) ^ k := zpow_pos (by norm_num) _
    have hsplit : (2 : ℚ) ^ e = (2 : ℚ) ^ k * (2 : ℚ) ^ (j + 1) := by
      rw [hj, zpow_add₀ (by norm_num : (2 : ℚ) ≠ 0), ← zpow_natCast]
      push_cast
      rfl
    have ht2 : t = (m : ℚ) / (2 : ℚ) ^ (j + 1) := by
      rw [ht, hsplit]
      field_simp
      ring
    have hm' : (m : ℚ) ≤ (2 : ℚ) ^ (53 : ℕ) - 1 := by
      have : m + 1 ≤ 2 ^ 53 := hm
      have : ((m + 1 : ℕ) : ℚ) ≤ ((2 ^ 53 : ℕ) : ℚ) := by exact_mod_cast this
      push_cast at this
      linarith
    have hpow : (2 : ℚ) ≤ (2 : ℚ) ^ (j + 1) := by
      have : (2 : ℚ) ^ (1 : ℕ) ≤ (2 : ℚ) ^ (j + 1) :=
        pow_le_pow_right₀ (by norm_num) (by omega)
      simpa using this
    have hmnn : (0 : ℚ) ≤ m := Nat.cast_nonneg m
    have : t ≤ (m : ℚ) / 2 := by
      rw [ht2]
      exact div_le_div_of_nonneg_left hmnn (by norm_num) hpow
    have h53 : (2 : ℚ) ^ (53 : ℕ) = 2 * (2 : ℚ) ^ (52 : ℕ) := by norm_num
    linarith
  obtain ⟨d, hd⟩ : ∃ d : ℕ, k = e + d := ⟨(k - e).toNat, by omega⟩
  have hsplit : (2 : ℚ) ^ k = (2 : ℚ) ^ e * (2 : ℚ) ^ d := by
    rw [hd, zpow_add₀ (by norm_num : (2 : ℚ) ≠ 0), zpow_natCast]
  have htint : t = ((m * 2 ^ d : ℕ) : ℤ) := by
    rw [ht, hsplit]
    push_cast
    field_simp
    ring
  have := roundHalfEven_nearest s ((m * 2 ^ d : ℕ) : ℤ)
  rw [← htint] at this
  linarith

/-- For a value below `2^53` no `double` is nearer to the quotient by `COIN` than the
amount. -/
theorem doubleAmount_nearest_double (value : ℕ) (hvalue : value < 2 ^ 53) (m : ℕ) (k : ℤ)
    (hm : m < 2 ^ 53) :
    |doubleAmount value - (value : ℚ) / (COIN : ℚ)|
      ≤ |(m : ℚ) * (2 : ℚ) ^ k - (value : ℚ) / (COIN : ℚ)| := by
  unfold doubleAmount
  rw [roundDouble_natCast value hvalue]
  by_cases h0 : value = 0
  · subst h0
    simp [roundDouble]
  · apply roundDouble_nearest _ _ m k hm
    have : (0 : ℚ) < value := by exact_mod_cast Nat.pos_of_ne_zero h0
    have hc : (0 : ℚ) < (COIN : ℚ) := by norm_num [COIN]
    positivity

/-- A value of zero gives the amount zero. -/
theorem doubleAmount_zero : doubleAmount 0 = 0 := by
  simp [doubleAmount, roundDouble]

/-! ## Properties of `GetTxAddressDetail` -/

/-- C9, the code at the failing input: for the invocation `sampleInvokeTx`, whose
recorded outputs are a credit of 200000000 and a debit of 50000000 with freeze height
100, the debit record carries the amount 0 and not -1/2, because line 248 divides two
integers before the conversion to `double`; the credit record carries 2. -/
theorem GetTxAddressDetail_output_amount_truncated :
    moneyAmount creditOutput.money = 200000000 ∧
      moneyAmount debitOutput.money = 50000000 ∧
      GetTxAddressDetail sampleChain sampleInvokeTx =
        [[("tx_type", .str "CONTRACT_INVOKE_TX"), ("from_address", .str "addr1"),
          ("to_address", .str "addr0"), ("arguments", .str "abcd"),
          ("transfer_amount", .real 0)],
         [("address", .str "addr1"), ("category", .str "receive"), ("amount", .real 2)],
         [("address", .str "addr1"), ("category", .str "send"), ("amount", .real 0),
          ("freeze_height", .int 100)]] ∧
      (0 : ℚ) ≠ -((moneyAmount debitOutput.money : ℚ) / (COIN : ℚ)) := by
  have hcredit : moneyAmount creditOutput.money = 200000000 := by decide
  have hdebit : moneyAmount debitOutput.money = 50000000 := by decide
  refine ⟨hcredit, hdebit, ?_, ?_⟩
  · have h1 : outputAmount creditOutput = 2 := by
      unfold outputAmount
      rw [hcredit]
      norm_num [COIN]
    have h2 : outputAmount debitOutput = 0 := by
      unfold outputAmount
      rw [hdebit]
      norm_num [COIN]
    have h3 : outputAddress sampleChain creditOutput = "addr1" := by decide
    have h4 : outputAddress sampleChain debitOutput = "addr1" := by decide
    have h5 : sampleChain.ToAddress (senderKeyId sampleChain sampleInvokeTx.txUid)
        = "addr1" := by decide
    have h6 : sampleChain.ToAddress (appKeyId sampleChain sampleInvokeTx.appUid)
        = "addr0" := by decide
    have h7 : HexStr sampleInvokeTx.arguments = "abcd" := by decide
    have h8 : toInt32 (100 : Nat) = 100 := by decide
    have h9 : sampleChain.GetTxOutput (sampleChain.GetHash sampleInvokeTx)
        = [creditOutput, debitOutput] := rfl
    have h10 : doubleAmount sampleInvokeTx.valueWICC = 0 := doubleAmount_zero
    have hc : creditOutput.opType = .ADD_BCOIN ∧ creditOutput.timeoutHeight = 0 :=
      ⟨rfl, rfl⟩
    have hd : debitOutput.opType = .MINUS_BCOIN ∧ debitOutput.timeoutHeight = 100 :=
      ⟨rfl, rfl⟩
    have ht : sampleInvokeTx.nTxType = .CONTRACT_INVOKE_TX := rfl
    unfold GetTxAddressDetail
    simp only [ht, h9, h10, List.map, invokeSummary, outputRecord, h1, h2, h3, h4, h5,
      h6, h7, h8, hc.1, hc.2, hd.1, hd.2]
    simp
  · rw [hdebit]
    norm_num [COIN]

/-- C10: for a contract invocation `GetTxAddressDetail` returns the summary record
(`tx_type` `CONTRACT_INVOKE_TX`, `from_address`, `to_address`, the hex-encoded
`arguments`, `transfer_amount`) followed by one record per output that
`GetTxOutput` reports for the transaction hash, in the stored order: `n + 1` records
for `n` recorded outputs. -/
theorem GetTxAddressDetail_contract_invoke_records (env : ChainEnv) (tx : CBaseTx)
    (htype : tx.nTxType = .CONTRACT_INVOKE_TX) :
    GetTxAddressDetail env tx =
        [("tx_type", .str "CONTRACT_INVOKE_TX"),
         ("from_address", .str (env.ToAddress (senderKeyId env tx.txUid))),
         ("to_address", .str (env.ToAddress (appKeyId env tx.appUid))),
         ("arguments", .str (HexStr tx.arguments)),
         ("transfer_amount", .real (doubleAmount tx.valueWICC))] ::
          (env.GetTxOutput (env.GetHash tx)).map (outputRecord env) ∧
      (GetTxAddressDetail env tx).length = (env.GetTxOutput (env.GetHash tx)).length + 1 ∧
      ∀ k, k < (env.GetTxOutput (env.GetHash tx)).length →
        (GetTxAddressDetail env tx)[k + 1]?
          = ((env.GetTxOutput (env.GetHash tx))[k]?).map (outputRecord env) := by
  have h : GetTxAddressDetail env tx =
      invokeSummary env tx (doubleAmount tx.valueWICC) ::
        (env.GetTxOutput (env.GetHash tx)).map (outputRecord env) := by
    unfold GetTxAddressDetail
    simp only [htype]
  refine ⟨h, ?_, ?_⟩
  · rw [h]
    simp
  · intro k _
    rw [h]
    simp

/-- Witness of C10: `sampleInvokeTx` has two recorded outputs and gets three records. -/
theorem GetTxAddressDetail_contract_invoke_records_witness :
    sampleInvokeTx.nTxType = .CONTRACT_INVOKE_TX ∧
      (sampleChain.GetTxOutput (sampleChain.GetHash sampleInvokeTx)).length = 2 ∧
      (GetTxAddressDetail sampleChain sampleInvokeTx).length = 2 + 1 :=
  ⟨rfl, rfl,
   (GetTxAddressDetail_contract_invoke_records sampleChain sampleInvokeTx rfl).2.1⟩

/-! ## Signing and the sender identifier in `SubmitTx` -/

/-- A successful run of lines 33-60 made exactly two wallet calls: `Sign` on the
signature hash of the transaction with the registered id stored in `txUid`, and
`CommitTx` on that transaction with the signature written by `Sign`. -/
theorem SubmitTx.signAndCommit_ok (env : SubmitEnv) (userId : CUserID) (tx : CBaseTx)
    (obj : Object) (h : (SubmitTx.signAndCommit env userId tx).result = .ok obj) :
    ∃ keyId, env.pAccountCache.GetKeyId userId = some keyId ∧
      (SubmitTx.signAndCommit env userId tx).calls =
        [.Sign keyId (env.ComputeSignatureHash
            { tx with txUid := .regId (env.pAccountCache.GetRegId userId).2 }),
         .CommitTx
            { tx with
              txUid := .regId (env.pAccountCache.GetRegId userId).2,
              signature := (env.pWalletMain.Sign keyId (env.ComputeSignatureHash
                { tx with txUid := .regId (env.pAccountCache.GetRegId userId).2 })).2 }] ∧
      (SubmitTx.signAndCommit env userId tx).tx =
        { tx with
          txUid := .regId (env.pAccountCache.GetRegId userId).2,
          signature := (env.pWalletMain.Sign keyId (env.ComputeSignatureHash
            { tx with txUid := .regId (env.pAccountCache.GetRegId userId).2 })).2 } := by
  cases hkey : env.pAccountCache.GetKeyId userId with
  | none => simp [SubmitTx.signAndCommit, hkey] at h
  | some keyId =>
    refine ⟨keyId, rfl, ?_⟩
    cases hpresent : env.pWalletMain.present with
    | false => simp [SubmitTx.signAndCommit, hkey, hpresent] at h
    | true =>
      cases hunlocked : env.pWalletMain.EnsureWalletIsUnlocked with
      | some e => simp [SubmitTx.signAndCommit, hkey, hpresent, hunlocked] at h
      | none =>
        cases hhave : env.pWalletMain.HaveKey keyId with
        | false => simp [SubmitTx.signAndCommit, hkey, hpresent, hunlocked, hhave] at h
        | true =>
          cases hsigned : (env.pWalletMain.Sign keyId (env.ComputeSignatureHash
              { tx with txUid := .regId (env.pAccountCache.GetRegId userId).2 })).1 with
          | false =>
            simp [SubmitTx.signAndCommit, hkey, hpresent, hunlocked, hhave, hsigned] at h
          | true =>
            cases hret : (env.pWalletMain.CommitTx
                { tx with
                  txUid := .regId (env.pAccountCache.GetRegId userId).2,
                  signature := (env.pWalletMain.Sign keyId (env.ComputeSignatureHash
                    { tx with
                      txUid := .regId (env.pAccountCache.GetRegId userId).2 })).2 }).1 with
            | false =>
              simp [SubmitTx.signAndCommit, hkey, hpresent, hunlocked, hhave, hsigned, hret]
                at h
            | true =>
              simp [SubmitTx.signAndCommit, hkey, hpresent, hunlocked, hhave, hsigned, hret]

/-- A successful run from line 23 on is a successful run of lines 33-60. -/
theorem SubmitTx.checkAccount_ok (env : SubmitEnv) (userId : CUserID) (tx : CBaseTx)
    (obj : Object) (h : (SubmitTx.checkAccount env userId tx).result = .ok obj) :
    SubmitTx.checkAccount env userId tx = SubmitTx.signAndCommit env userId tx := by
  unfold SubmitTx.checkAccount at h ⊢
  split at h
  · split at h
    · split at h
      · simp at h
      next hreg hbal => rw [if_pos hreg, if_neg hbal]
    · simp at h
  · simp at h

/-- The transaction object as lines 15-21 leave it when the fee check passes. -/
theorem SubmitTx_eq_checkAccount (env : SubmitEnv) (userId : CUserID) (tx : CBaseTx)
    (hfee : tx.llFees = 0 ∨ env.GetTxMinFee tx.nTxType env.chainActiveHeight ≤ tx.llFees) :
    SubmitTx env userId tx =
      SubmitTx.checkAccount env userId
        { tx with llFees :=
            if tx.llFees = 0 then env.GetTxMinFee tx.nTxType env.chainActiveHeight
            else tx.llFees } := by
  unfold SubmitTx
  dsimp only
  by_cases hz : tx.llFees = 0
  · rw [if_pos hz, if_pos hz]
  · have hge : ¬ tx.llFees < env.GetTxMinFee tx.nTxType env.chainActiveHeight := by
      rcases hfee with h | h
      · exact absurd h hz
      · omega
    rw [if_neg hz, if_neg hge, if_neg hz]

/-- A run that made a wallet call or succeeded passed the fee check. -/
theorem SubmitTx_fee_check_passed (env : SubmitEnv) (userId : CUserID) (tx : CBaseTx)
    (h : (SubmitTx env userId tx).calls ≠ [] ∨ ∃ obj, (SubmitTx env userId tx).result = .ok obj) :
    tx.llFees = 0 ∨ env.GetTxMinFee tx.nTxType env.chainActiveHeight ≤ tx.llFees := by
  by_cases hz : tx.llFees = 0
  · exact Or.inl hz
  · by_cases hlt : tx.llFees < env.GetTxMinFee tx.nTxType env.chainActiveHeight
    · exfalso
      unfold SubmitTx at h
      simp only [hz, hlt, if_false, if_true] at h
      rcases h with h | ⟨obj, h⟩
      · exact h rfl
      · cases h
    · exact Or.inr (by omega)

/-- A run from line 23 on that made a wallet call is a run of lines 33-60. -/
theorem SubmitTx.checkAccount_calls (env : SubmitEnv) (userId : CUserID) (tx : CBaseTx)
    (h : (SubmitTx.checkAccount env userId tx).calls ≠ []) :
    SubmitTx.checkAccount env userId tx = SubmitTx.signAndCommit env userId tx := by
  unfold SubmitTx.checkAccount at h ⊢
  split at h
  · split at h
    · split at h
      · exact absurd rfl h
      next hreg hbal => rw [if_pos hreg, if_neg hbal]
    · exact absurd rfl h
  · exact absurd rfl h

/-- Every wallet call of lines 33-60 is made on the transaction whose `txUid` is the
registered id that `GetRegId` wrote: `Sign` gets its signature hash, `CommitTx` gets
the transaction itself, and the caller's object carries it afterwards. -/
theorem SubmitTx.signAndCommit_sign (env : SubmitEnv) (userId : CUserID) (tx : CBaseTx)
    (keyId : CKeyID) (hash : uint256)
    (h : WalletCall.Sign keyId hash ∈ (SubmitTx.signAndCommit env userId tx).calls) :
    hash = env.ComputeSignatureHash
        { tx with txUid := .regId (env.pAccountCache.GetRegId userId).2 } ∧
      (SubmitTx.signAndCommit env userId tx).tx.txUid
        = .regId (env.pAccountCache.GetRegId userId).2 ∧
      ∀ c, WalletCall.CommitTx c ∈ (SubmitTx.signAndCommit env userId tx).calls →
        c.txUid = .regId (env.pAccountCache.GetRegId userId).2 := by
  cases hkey : env.pAccountCache.GetKeyId userId with
  | none => simp [SubmitTx.signAndCommit, hkey] at h
  | some k =>
    cases hpresent : env.pWalletMain.present with
    | false => simp [SubmitTx.signAndCommit, hkey, hpresent] at h
    | true =>
      cases hunlocked : env.pWalletMain.EnsureWalletIsUnlocked with
      | some e => simp [SubmitTx.signAndCommit, hkey, hpresent, hunlocked] at h
      | none =>
        cases hhave : env.pWalletMain.HaveKey k with
        | false => simp [SubmitTx.signAndCommit, hkey, hpresent, hunlocked, hhave] at h
        | true =>
          cases hsigned : (env.pWalletMain.Sign k (env.ComputeSignatureHash
              { tx with txUid := .regId (env.pAccountCache.GetRegId userId).2 })).1 with
          | false =>
            simp [SubmitTx.signAndCommit, hkey, hpresent, hunlocked, hhave, hsigned] at h ⊢
            exact h.2
          | true =>
            cases hret : (env.pWalletMain.CommitTx
                { tx with
                  txUid := .regId (env.pAccountCache.GetRegId userId).2,
                  signature := (env.pWalletMain.Sign k (env.ComputeSignatureHash
                    { tx with
                      txUid := .regId (env.pAccountCache.GetRegId userId).2 })).2 }).1 with
            | false =>
              simp [SubmitTx.signAndCommit, hkey, hpresent, hunlocked, hhave, hsigned, hret]
                at h ⊢
              exact h.2
            | true =>
              simp [SubmitTx.signAndCommit, hkey, hpresent, hunlocked, hhave, hsigned, hret]
                at h ⊢
              exact h.2

/-- C16: when `SubmitTx` succeeds, the wallet calls are exactly `Sign` and then
`CommitTx`.  The hash given to `Sign` is `ComputeSignatureHash` of the transaction in
its final state, that is with the fee after auto-fill and with `txUid` set to the
registered id; the transaction given to `CommitTx` (and left in the caller's object) is
that hashed transaction with only the signature replaced by the one `Sign` wrote. -/
theorem SubmitTx_signs_final_transaction (env : SubmitEnv) (userId : CUserID)
    (tx : CBaseTx) (obj : Object) (hok : (SubmitTx env userId tx).result = .ok obj) :
    ∃ keyId hashed signature,
      hashed = { tx with
        llFees := if tx.llFees = 0 then env.GetTxMinFee tx.nTxType env.chainActiveHeight
          else tx.llFees,
        txUid := .regId (env.pAccountCache.GetRegId userId).2 } ∧
      signature = (env.pWalletMain.Sign keyId (env.ComputeSignatureHash hashed)).2 ∧
      (SubmitTx env userId tx).calls =
        [.Sign keyId (env.ComputeSignatureHash hashed),
         .CommitTx { hashed with signature := signature }] ∧
      (SubmitTx env userId tx).tx = { hashed with signature := signature } := by
  have hfee := SubmitTx_fee_check_passed env userId tx (Or.inr ⟨obj, hok⟩)
  have hrun := SubmitTx_eq_checkAccount env userId tx hfee
  rw [hrun] at hok ⊢
  have hacc := SubmitTx.checkAccount_ok env userId _ obj hok
  rw [hacc] at hok ⊢
  obtain ⟨keyId, _, hcalls, htx⟩ := SubmitTx.signAndCommit_ok env userId _ obj hok
  exact ⟨keyId, _, _, rfl, rfl, hcalls, htx⟩

/-- Witness of C16: the zero-fee transfer of `sampleSubmitEnv` is hashed with the fee
10000 and the registered id `1-1`, and committed with the signature `[7]`. -/
theorem SubmitTx_signs_final_transaction_witness :
    (SubmitTx sampleSubmitEnv (.keyId ⟨1⟩) (sampleTx 0)).result
        = .ok [("txid", .str "c0ffee")] ∧
      ∃ keyId hashed signature,
        hashed = { sampleTx 0 with
          llFees := if (sampleTx 0).llFees = 0 then
              sampleSubmitEnv.GetTxMinFee (sampleTx 0).nTxType sampleSubmitEnv.chainActiveHeight
            else (sampleTx 0).llFees,
          txUid := .regId (sampleSubmitEnv.pAccountCache.GetRegId (.keyId ⟨1⟩)).2 } ∧
        signature = (sampleSubmitEnv.pWalletMain.Sign keyId
          (sampleSubmitEnv.ComputeSignatureHash hashed)).2 ∧
        (SubmitTx sampleSubmitEnv (.keyId ⟨1⟩) (sampleTx 0)).calls =
          [.Sign keyId (sampleSubmitEnv.ComputeSignatureHash hashed),
           .CommitTx { hashed with signature := signature }] ∧
        (SubmitTx sampleSubmitEnv (.keyId ⟨1⟩) (sampleTx 0)).tx
          = { hashed with signature := signature } :=
  ⟨rfl,
   SubmitTx_signs_final_transaction sampleSubmitEnv (.keyId ⟨1⟩) (sampleTx 0)
     [("txid", .str "c0ffee")] rfl⟩

/-- C20: whenever `SubmitTx` reaches `Sign`, the hash signed is that of a transaction
whose `txUid` is the registered id `GetRegId` wrote for the supplied user id, whatever
`txUid` the caller's transaction carried; the caller's object and every transaction
given to `CommitTx` carry that registered id.  The flag `GetRegId` returns is not
looked at: the run is the same whichever flag the lookup gives. -/
theorem SubmitTx_txUid_overwritten (env : SubmitEnv) (userId : CUserID) (tx : CBaseTx)
    (keyId : CKeyID) (hash : uint256)
    (hsign : WalletCall.Sign keyId hash ∈ (SubmitTx env userId tx).calls) :
    (∃ hashed, hash = env.ComputeSignatureHash hashed ∧
        hashed.txUid = .regId (env.pAccountCache.GetRegId userId).2) ∧
      (SubmitTx env userId tx).tx.txUid = .regId (env.pAccountCache.GetRegId userId).2 ∧
      (∀ c, WalletCall.CommitTx c ∈ (SubmitTx env userId tx).calls →
        c.txUid = .regId (env.pAccountCache.GetRegId userId).2) ∧
      ∀ flag : Bool,
        SubmitTx
            { env with pAccountCache :=
                { env.pAccountCache with
                  GetRegId := fun u => (flag, (env.pAccountCache.GetRegId u).2) } }
            userId tx
          = SubmitTx env userId tx := by
  have hne : (SubmitTx env userId tx).calls ≠ [] := by
    intro hnil
    rw [hnil] at hsign
    simp at hsign
  have hfee := SubmitTx_fee_check_passed env userId tx (Or.inl hne)
  have hrun := SubmitTx_eq_checkAccount env userId tx hfee
  rw [hrun] at hsign hne
  have hacc := SubmitTx.checkAccount_calls env userId _ hne
  rw [hacc] at hsign
  obtain ⟨h1, h2, h3⟩ := SubmitTx.signAndCommit_sign env userId _ keyId hash hsign
  have hwhole := hrun.trans hacc
  refine ⟨⟨_, h1, rfl⟩, ?_, ?_, fun flag => rfl⟩
  · rw [hwhole]
    exact h2
  · rw [hwhole]
    exact h3

/-- Witness of C20: the caller's `txUid` is the key id 1, the committed one is the
registered id `1-1`. -/
theorem SubmitTx_txUid_overwritten_witness :
    (sampleTx 0).txUid = .keyId ⟨1⟩ ∧
      WalletCall.Sign ⟨1⟩ 10001 ∈ (SubmitTx sampleSubmitEnv (.keyId ⟨1⟩) (sampleTx 0)).calls ∧
      (SubmitTx sampleSubmitEnv (.keyId ⟨1⟩) (sampleTx 0)).tx.txUid
        = .regId ⟨[1, 0, 0, 0, 1, 0]⟩ ∧
      (∀ c, WalletCall.CommitTx c
          ∈ (SubmitTx sampleSubmitEnv (.keyId ⟨1⟩) (sampleTx 0)).calls →
        c.txUid = .regId ⟨[1, 0, 0, 0, 1, 0]⟩) :=
  have h := SubmitTx_txUid_overwritten sampleSubmitEnv (.keyId ⟨1⟩) (sampleTx 0) ⟨1⟩ 10001
    (by decide)
  ⟨rfl, by decide, h.2.1, h.2.2.1⟩

/-! ## The index and the pending pool in `GetTxDetailJSON` -/

/-- C17: let `txid` be the id of no genesis transaction (and let the genesis merkle
root pass the assertion of line 89).  With indexing enabled and an index position for
`txid`, the header and the transaction read at that position give the result: the
transaction's `ToJson` fields, then `confirmed_height`, `confirmed_time` and
`block_hash` of that header (then `listOutput` for a contract invocation, and `rawtx`),
whatever the pending pool holds; the two numbers are cast to `int` as the source does,
which leaves the header's height and time as they are whenever they fit an `int`.  With indexing disabled the index is not consulted (the
result is the same for every index content): the result is the pooled transaction's
`ToJson` fields followed by `rawtx` alone, so every provenance field in it is one of
`ToJson`, or the empty record when the pool does not hold `txid`. -/
theorem GetTxDetailJSON_index_then_mempool (env : ChainEnv) (txid : uint256)
    (hroot : env.genesisblock.GetMerkleRootHash = env.BuildMerkleTree env.genesisblock)
    (hgenesis : ∀ i, i < env.genesisblock.vptx.length →
      env.GetTxid env.genesisblock i ≠ txid) :
    (env.IsTxIndex = true → ∀ postx header tx,
        env.ReadTxIndex txid = some postx →
        env.ReadBlockHeader postx = .ok header →
        env.ReadTx postx = .ok tx →
        GetTxDetailJSON env txid = .ok (env.ToJson tx ++
          [("confirmed_height", .int (toInt32 header.GetHeight)),
           ("confirmed_time", .int (toInt32 header.GetTime)),
           ("block_hash", .str (env.GetHex header.GetHash))] ++
          (if tx.nTxType = TxType.CONTRACT_INVOKE_TX then
            [("listOutput",
              .array ((env.GetTxOutput (env.GetHash tx)).map env.VmOperateToJson))]
           else []) ++
          [("rawtx", .str (HexStr (env.Serialize tx)))]) ∧
        ((header.GetHeight : ℤ) < 2147483648 →
          toInt32 header.GetHeight = header.GetHeight) ∧
        (-2147483648 ≤ header.GetTime → header.GetTime < 2147483648 →
          toInt32 header.GetTime = header.GetTime) ∧
        ∀ lookup, GetTxDetailJSON { env with mempoolLookup := lookup } txid
          = GetTxDetailJSON env txid) ∧
    (env.IsTxIndex = false →
      (∀ index, GetTxDetailJSON { env with ReadTxIndex := index } txid
        = GetTxDetailJSON env txid) ∧
      (∀ tx, env.mempoolLookup txid = some tx →
        GetTxDetailJSON env txid
          = .ok (env.ToJson tx ++ [("rawtx", .str (HexStr (env.Serialize tx)))]) ∧
        ∀ key value, key ∈ ["confirmed_height", "confirmed_time", "block_hash"] →
          (key, value) ∈ env.ToJson tx ++ [("rawtx", Value.str (HexStr (env.Serialize tx)))] →
          (key, value) ∈ env.ToJson tx) ∧
      (env.mempoolLookup txid = none → GetTxDetailJSON env txid = .ok [])) := by
  have hscan : GetTxDetailJSON.scanGenesis (env.GetTxid env.genesisblock) txid 0
      env.genesisblock.vptx = none := by
    rw [GetTxDetailJSON.scanGenesis_none]
    intro m hm
    simpa using hgenesis m hm
  constructor
  · intro henabled postx header tx hindex hheader htx
    have hrun : GetTxDetailJSON env txid
        = .ok (GetTxDetailJSON.indexedRecord env header tx) := by
      unfold GetTxDetailJSON
      simp only [hroot, ne_eq, not_true_eq_false, if_false, hscan, henabled, if_true,
        hindex, GetTxDetailJSON.readIndexed, hheader, htx]
    refine ⟨hrun, fun hfits => toInt32_of_fits _ (by omega) hfits, toInt32_of_fits _, ?_⟩
    intro lookup
    rw [hrun]
    unfold GetTxDetailJSON
    simp only [hroot, ne_eq, not_true_eq_false, if_false, hscan, henabled, if_true,
      hindex, GetTxDetailJSON.readIndexed, hheader, htx]
    rfl
  · intro hdisabled
    have hrun : GetTxDetailJSON env txid = GetTxDetailJSON.fromMempool env txid := by
      unfold GetTxDetailJSON
      simp [hroot, hscan, hdisabled]
    refine ⟨?_, ?_, ?_⟩
    · intro index
      rw [hrun]
      unfold GetTxDetailJSON
      simp only [hroot, ne_eq, not_true_eq_false, if_false, hscan, hdisabled]
      rfl
    · intro tx hpool
      refine ⟨?_, ?_⟩
      · rw [hrun]
        unfold GetTxDetailJSON.fromMempool
        simp only [hpool]
      · intro key value hkey hmem
        rcases List.mem_append.mp hmem with h | h
        · exact h
        · exfalso
          simp only [List.mem_singleton, Prod.mk.injEq] at h
          rw [h.1] at hkey
          revert hkey
          decide
    · intro hpool
      rw [hrun]
      unfold GetTxDetailJSON.fromMempool
      simp only [hpool]

/-- Witness of C17: the id 901 is indexed and pooled in `sampleChainPooled`, which
answers from the block store; `sampleChainNoIndex` answers from the pool, and with the
empty record for the unknown id 7. -/
theorem GetTxDetailJSON_index_then_mempool_witness :
    sampleChainPooled.mempoolLookup 901 = some (sampleTx 3) ∧
      GetTxDetailJSON sampleChainPooled 901 = .ok
        [("fees", .int 10000), ("confirmed_height", .int 8),
         ("confirmed_time", .int 1525405000), ("block_hash", .str "4242"),
         ("listOutput", .array [.int 0, .int 100]), ("rawtx", .str (HexStr [10000]))] ∧
      GetTxDetailJSON sampleChainNoIndex 901
        = .ok [("fees", .int 3), ("rawtx", .str (HexStr [3]))] ∧
      GetTxDetailJSON sampleChainNoIndex 7 = .ok [] :=
  have hon := GetTxDetailJSON_index_then_mempool sampleChainPooled 901 rfl (by decide)
  have hoff := GetTxDetailJSON_index_then_mempool sampleChainNoIndex 901 rfl (by decide)
  have hoff7 := GetTxDetailJSON_index_then_mempool sampleChainNoIndex 7 rfl (by decide)
  ⟨rfl,
   (hon.1 rfl ⟨0, 10, 30⟩ { GetHeight := 8, GetTime := 1525405000, GetHash := 4242 }
      sampleInvokeTx rfl rfl rfl).1,
   ((hoff.2 rfl).2.1 (sampleTx 3) rfl).1,
   (hoff7.2 rfl).2.2 rfl⟩

/-! ## The projection of the other transaction kinds -/

/-- The co-signer loop fails exactly when the account cache has no account for the
registered id of one of the signature pairs. -/
theorem cosignerPubKeys_eq_none (cache : CAccountCache) (pairs : List CSignaturePair) :
    cosignerPubKeys cache pairs = none ↔
      ∃ item, item ∈ pairs ∧ cache.GetAccount (CUserID.regId item.regId) = none := by
  induction pairs with
  | nil => simp [cosignerPubKeys]
  | cons first rest ih =>
    unfold cosignerPubKeys
    cases hfirst : cache.GetAccount (CUserID.regId first.regId) with
    | none =>
      simp only [true_iff]
      exact ⟨first, List.mem_cons_self _ _, hfirst⟩
    | some account =>
      cases hrest : cosignerPubKeys cache rest with
      | none =>
        simp only [true_iff]
        obtain ⟨item, hmem, hnone⟩ := ih.mp hrest
        exact ⟨item, List.mem_cons_of_mem _ hmem, hnone⟩
      | some keys =>
        simp only [reduceCtorEq, false_iff]
        rintro ⟨item, hmem, hnone⟩
        rcases List.mem_cons.mp hmem with heq | hmem
        · subst heq
          rw [hfirst] at hnone
          cases hnone
        · have := ih.mpr ⟨item, hmem, hnone⟩
          rw [hrest] at this
          cases this

/-- C12: for a multisig transfer in which the account cache has no account for the
registered id of at least one co-signer, `GetTxAddressDetail` returns the empty list. -/
theorem GetTxAddressDetail_mulsig_unresolved_cosigner (env : ChainEnv) (tx : CBaseTx)
    (htype : tx.nTxType = .COMMON_MTX)
    (hmissing : ∃ item, item ∈ tx.signaturePairs ∧
      env.pAccountCache.GetAccount (CUserID.regId item.regId) = none) :
    GetTxAddressDetail env tx = [] := by
  have hnone := (cosignerPubKeys_eq_none env.pAccountCache tx.signaturePairs).mpr hmissing
  unfold GetTxAddressDetail
  simp only [htype, hnone]

/-- Witness of C12: the second co-signer of `sampleMulsigTx` has no account, the first
one has. -/
theorem GetTxAddressDetail_mulsig_unresolved_cosigner_witness :
    sampleChainCosigner.pAccountCache.GetAccount (.regId ⟨[1, 0, 0, 0, 1, 0]⟩)
        = some (sampleAccount true 1000000) ∧
      sampleChainCosigner.pAccountCache.GetAccount (.regId ⟨[9, 0, 0, 0, 1, 0]⟩) = none ∧
      GetTxAddressDetail sampleChainCosigner sampleMulsigTx = [] :=
  ⟨by decide, by decide,
   GetTxAddressDetail_mulsig_unresolved_cosigner sampleChainCosigner sampleMulsigTx rfl
     ⟨⟨⟨[9, 0, 0, 0, 1, 0]⟩, [8]⟩, by decide, by decide⟩⟩

/-- C14: for a transaction of a kind that is not projected (the eleven CDP, price feed,
fcoin stake and DEX kinds of lines 321-331, or any tag the switch does not list)
`GetTxAddressDetail` returns the empty list; the function has no throwing path. -/
theorem GetTxAddressDetail_unprojected_kind (env : ChainEnv) (tx : CBaseTx)
    (hkind : tx.nTxType ∈
        [TxType.CDP_STAKE_TX, .CDP_REDEEMP_TX, .CDP_LIQUIDATE_TX, .PRICE_FEED_TX,
         .FCOIN_STAKE_TX, .DEX_SETTLE_TX, .DEX_CANCEL_ORDER_TX, .DEX_BUY_LIMIT_ORDER_TX,
         .DEX_SELL_LIMIT_ORDER_TX, .DEX_BUY_MARKET_ORDER_TX, .DEX_SELL_MARKET_ORDER_TX] ∨
      ∃ tag, tx.nTxType = .unlisted tag) :
    GetTxAddressDetail env tx = [] := by
  unfold GetTxAddressDetail
  rcases hkind with hlisted | ⟨tag, htag⟩
  · simp only [List.mem_cons, List.mem_singleton, List.not_mem_nil, or_false] at hlisted
    rcases hlisted with h | h | h | h | h | h | h | h | h | h | h <;> simp only [h]
  · simp only [htag]

/-- Witness of C14: a price feed and an unlisted tag project to nothing. -/
theorem GetTxAddressDetail_unprojected_kind_witness :
    samplePriceFeedTx.nTxType = .PRICE_FEED_TX ∧
      GetTxAddressDetail sampleChain samplePriceFeedTx = [] ∧
      GetTxAddressDetail sampleChain { samplePriceFeedTx with nTxType := .unlisted 200 } = [] :=
  ⟨rfl,
   GetTxAddressDetail_unprojected_kind sampleChain samplePriceFeedTx (Or.inl (by decide)),
   GetTxAddressDetail_unprojected_kind sampleChain
     { samplePriceFeedTx with nTxType := .unlisted 200 } (Or.inr ⟨200, rfl⟩)⟩

/-- C15: for a reward, registration, contract-deploy or delegate-vote transaction whose
`GetInvolvedKeyIds` succeeds with a key id set that starts with `party` (the sole
involved party when the set has one element), `GetTxAddressDetail` returns exactly one
record: it carries the address of `party`, the category `receive` for a reward and
`send` for the other three kinds, the name of the kind, and as amount the WICC value
divided by `COIN` in `double`.  That amount is a `double` within three parts in `2^53`
of the exact quotient; for a value below `2^53` no `double` is nearer to the exact
quotient, and the amount is the exact quotient whenever that is a `double`. -/
theorem GetTxAddressDetail_single_party (env : ChainEnv) (tx : CBaseTx) (party : CKeyID)
    (others : List CKeyID)
    (hkeys : env.GetInvolvedKeyIds tx = some (party :: others)) :
    (tx.nTxType = .BLOCK_REWARD_TX → GetTxAddressDetail env tx =
        [[("address", .str (env.ToAddress party)), ("category", .str "receive"),
          ("amount", .real (doubleAmount tx.valueWICC)),
          ("tx_type", .str "BLOCK_REWARD_TX")]]) ∧
    (tx.nTxType = .ACCOUNT_REGISTER_TX → GetTxAddressDetail env tx =
        [[("address", .str (env.ToAddress party)), ("category", .str "send"),
          ("amount", .real (doubleAmount tx.valueWICC)),
          ("tx_type", .str "ACCOUNT_REGISTER_TX")]]) ∧
    (tx.nTxType = .CONTRACT_DEPLOY_TX → GetTxAddressDetail env tx =
        [[("from_address", .str (env.ToAddress party)), ("category", .str "send"),
          ("transfer_amount", .real (doubleAmount tx.valueWICC)),
          ("tx_type", .str "CONTRACT_DEPLOY_TX")]]) ∧
    (tx.nTxType = .DELEGATE_VOTE_TX → GetTxAddressDetail env tx =
        [[("from_address", .str (env.ToAddress party)), ("category", .str "send"),
          ("transfer_amount", .real (doubleAmount tx.valueWICC)),
          ("tx_type", .str "DELEGATE_VOTE_TX")]]) ∧
    (∃ m : ℕ, ∃ e : ℤ, m ≤ 2 ^ 53 ∧ doubleAmount tx.valueWICC = (m : ℚ) * (2 : ℚ) ^ e) ∧
    |doubleAmount tx.valueWICC - (tx.valueWICC : ℚ) / (COIN : ℚ)|
      ≤ 3 * ((tx.valueWICC : ℚ) / (COIN : ℚ)) / (2 : ℚ) ^ (53 : ℕ) ∧
    (tx.valueWICC < 2 ^ 53 → ∀ (m : ℕ) (k : ℤ), m < 2 ^ 53 →
      |doubleAmount tx.valueWICC - (tx.valueWICC : ℚ) / (COIN : ℚ)|
          ≤ |(m : ℚ) * (2 : ℚ) ^ k - (tx.valueWICC : ℚ) / (COIN : ℚ)| ∧
      ((tx.valueWICC : ℚ) / (COIN : ℚ) = (m : ℚ) * (2 : ℚ) ^ k →
        doubleAmount tx.valueWICC = (tx.valueWICC : ℚ) / (COIN : ℚ))) := by
  refine ⟨?_, ?_, ?_, ?_, doubleAmount_isDouble _, doubleAmount_close _,
    fun hvalue m k hm => ⟨doubleAmount_nearest_double _ hvalue m k hm,
      doubleAmount_exact _ hvalue m k hm⟩⟩ <;>
    intro htype <;> unfold GetTxAddressDetail <;>
    simp only [htype, hkeys, involvedRecord, deployVoteRecord, firstKeyId, List.headD_cons]

/-- Witness of C15: a reward of 250000000 is one `receive` record for key id 1 whose
amount is 5/2, a vote of value 0 is one `send` record with the amount 0. -/
theorem GetTxAddressDetail_single_party_witness :
    sampleChain.GetInvolvedKeyIds sampleRewardTx = some [⟨1⟩] ∧
      GetTxAddressDetail sampleChain sampleRewardTx =
        [[("address", .str "addr1"), ("category", .str "receive"),
          ("amount", .real (doubleAmount 250000000)),
          ("tx_type", .str "BLOCK_REWARD_TX")]] ∧
      doubleAmount 250000000 = 5 / 2 ∧
      GetTxAddressDetail sampleChain sampleVoteTx =
        [[("from_address", .str "addr1"), ("category", .str "send"),
          ("transfer_amount", .real (doubleAmount 0)),
          ("tx_type", .str "DELEGATE_VOTE_TX")]] ∧
      doubleAmount 0 = 0 :=
  have hreward := GetTxAddressDetail_single_party sampleChain sampleRewardTx ⟨1⟩ [] rfl
  have hvote := GetTxAddressDetail_single_party sampleChain sampleVoteTx ⟨1⟩ [] rfl
  ⟨rfl, hreward.1 rfl,
   ((hreward.2.2.2.2.2.2 (by decide) 5 (-1) (by norm_num)).2
      (by norm_num [sampleRewardTx, sampleTx, COIN])).trans
     (by norm_num [sampleRewardTx, sampleTx, COIN]),
   hvote.2.2.2.1 rfl,
   ((hvote.2.2.2.2.2.2 (by decide) 0 0 (by norm_num)).2
      (by norm_num [sampleVoteTx, sampleTx, COIN])).trans
     (by norm_num [sampleVoteTx, sampleTx, COIN])⟩

/-! ## The addresses of recorded contract outputs -/

/-- C13, the claim fails: in `sampleChainUnresolved` the first recorded output names the
registered id `9-1`, which the account cache cannot resolve, and `GetTxAddressDetail`
still returns the summary record and both output records; the unresolved one carries
the text `cannot get address from given RegId` as its address. -/
theorem GetTxAddressDetail_unresolved_output_counterexample :
    unresolvedOutput.accountType = .regid ∧
      sampleChainUnresolved.pAccountCache.GetKeyId
        (.regId ⟨(List.range 6).map (cell unresolvedOutput.accountId)⟩) = none ∧
      GetTxAddressDetail sampleChainUnresolved sampleInvokeTx ≠ [] ∧
      (GetTxAddressDetail sampleChainUnresolved sampleInvokeTx).length = 3 ∧
      (GetTxAddressDetail sampleChainUnresolved sampleInvokeTx)[1]?
        = some (outputRecord sampleChainUnresolved unresolvedOutput) ∧
      outputAddress sampleChainUnresolved unresolvedOutput
        = "cannot get address from given RegId" :=
  ⟨rfl, by decide, fun h => List.noConfusion h, rfl, rfl, by decide⟩

/-- C13 as amended: for a contract invocation with a recorded output in registered-id
form whose registered id the account cache cannot resolve, `GetTxAddressDetail` still
returns the summary record followed by one record per recorded output; the record of
that output is among them and its first field is `address` with the text
`cannot get address from given RegId`. -/
theorem GetTxAddressDetail_unresolved_output (env : ChainEnv) (tx : CBaseTx)
    (item : CVmOperate) (htype : tx.nTxType = .CONTRACT_INVOKE_TX)
    (hitem : item ∈ env.GetTxOutput (env.GetHash tx))
    (hform : item.accountType = .regid)
    (hunresolved : env.pAccountCache.GetKeyId
      (.regId ⟨(List.range 6).map (cell item.accountId)⟩) = none) :
    (GetTxAddressDetail env tx).length = (env.GetTxOutput (env.GetHash tx)).length + 1 ∧
      (GetTxAddressDetail env tx).head?
        = some (invokeSummary env tx (doubleAmount tx.valueWICC)) ∧
      outputRecord env item ∈ GetTxAddressDetail env tx ∧
      (outputRecord env item).head?
        = some ("address", .str "cannot get address from given RegId") := by
  have h : GetTxAddressDetail env tx =
      invokeSummary env tx (doubleAmount tx.valueWICC) ::
        (env.GetTxOutput (env.GetHash tx)).map (outputRecord env) := by
    unfold GetTxAddressDetail
    simp only [htype]
  refine ⟨?_, ?_, ?_, ?_⟩
  · rw [h]
    simp
  · rw [h]
    rfl
  · rw [h]
    exact List.mem_cons_of_mem _ (List.mem_map_of_mem _ hitem)
  · unfold outputRecord outputAddress RegIDToAddress
    simp only [hform, hunresolved]
    rfl

/-- Witness of the amended C13: the unresolved output of `sampleChainUnresolved`. -/
theorem GetTxAddressDetail_unresolved_output_witness :
    unresolvedOutput ∈ sampleChainUnresolved.GetTxOutput
        (sampleChainUnresolved.GetHash sampleInvokeTx) ∧
      (GetTxAddressDetail sampleChainUnresolved sampleInvokeTx).length = 2 + 1 ∧
      outputRecord sampleChainUnresolved unresolvedOutput
        ∈ GetTxAddressDetail sampleChainUnresolved sampleInvokeTx ∧
      (outputRecord sampleChainUnresolved unresolvedOutput).head?
        = some ("address", .str "cannot get address from given RegId") :=
  have h := GetTxAddressDetail_unresolved_output sampleChainUnresolved sampleInvokeTx
    unresolvedOutput rfl (by decide) rfl (by decide)
  ⟨by decide, h.1, h.2.2.1, h.2.2.2⟩

/-- C18, the code at the failing input: the recorded output `base58Output` is in
raw-address form and stores the 34 characters `WZ8C...`, whose first byte is 87; the
address field of its record is 87 copies of the character with code 34, not the stored
address. -/
theorem GetTxAddressDetail_base58_address_garbled :
    base58Output.accountType = .base58addr ∧
      storedAddress base58Output = "WZ8CmYvPLKXCB9qjaEeabcdefghijkmnop" ∧
      GetTxAddressDetail sampleChainBase58 sampleInvokeTx =
        [invokeSummary sampleChainBase58 sampleInvokeTx 0,
         [("address", .str (String.mk (List.replicate 87 (Char.ofNat 34)))),
          ("category", .str "receive"), ("amount", .real 2)]] ∧
      String.mk (List.replicate 87 (Char.ofNat 34)) ≠ storedAddress base58Output := by
  have hamount : outputAmount base58Output = 2 := by
    have hmoney : moneyAmount base58Output.money = 200000000 := by decide
    unfold outputAmount
    rw [hmoney]
    norm_num [COIN]
  have haddress : outputAddress sampleChainBase58 base58Output
      = String.mk (List.replicate 87 (Char.ofNat 34)) := by decide
  have hstored : storedAddress base58Output = "WZ8CmYvPLKXCB9qjaEeabcdefghijkmnop" := by
    decide
  refine ⟨rfl, hstored, ?_, ?_⟩
  · have hzero : doubleAmount sampleInvokeTx.valueWICC = 0 := doubleAmount_zero
    have houtputs : sampleChainBase58.GetTxOutput (sampleChainBase58.GetHash sampleInvokeTx)
        = [base58Output] := rfl
    have hop : base58Output.opType = .ADD_BCOIN ∧ base58Output.timeoutHeight = 0 :=
      ⟨rfl, rfl⟩
    have ht : sampleInvokeTx.nTxType = .CONTRACT_INVOKE_TX := rfl
    unfold GetTxAddressDetail
    simp only [ht, houtputs, hzero, List.map, outputRecord, haddress, hamount, hop.1, hop.2]
    simp
  · rw [hstored]
    decide

/-! ## The projection of coin transfers -/

/-- Decoding a hexadecimal digit gives its value back. -/
theorem hexValue_hexDigit (n : Nat) (h : n < 16) : hexValue (hexDigit n) = some n := by
  interval_cases n <;> rfl

/-- Hex-decoding the encoding of a byte string gives the bytes back. -/
theorem hexDecode_HexStr (bs : Bytes) :
    hexDecode (HexStr bs) = some (bs.map fun b => b % 256) := by
  unfold hexDecode HexStr
  show hexDecodeChars (bs.flatMap fun b => [hexDigit (b % 256 / 16), hexDigit (b % 16)]) = _
  induction bs with
  | nil => rfl
  | cons b rest ih =>
    simp only [List.flatMap_cons, List.cons_append, List.nil_append, List.map_cons]
    unfold hexDecodeChars
    rw [hexValue_hexDigit _ (by omega), hexValue_hexDigit _ (by omega), ih]
    simp only [Option.some.injEq, List.cons.injEq, and_true]
    omega

/-- C11, the claim fails for a sender given as an address hash: the transfer
`sampleTx 10000` is sent by the key id 1, whose address is `addr1`, and its record
carries the address `addr0` of the empty key id as `from_address`. -/
theorem GetTxAddressDetail_coin_transfer_counterexample :
    (sampleTx 10000).nTxType = .BCOIN_TRANSFER_TX ∧
      (sampleTx 10000).txUid = .keyId ⟨1⟩ ∧
      specDenotedKeyId sampleChain (sampleTx 10000).txUid = some ⟨1⟩ ∧
      sampleChain.ToAddress ⟨1⟩ = "addr1" ∧
      GetTxAddressDetail sampleChain (sampleTx 10000) =
        [[("tx_type", .str "BCOIN_TRANSFER_TX"), ("from_address", .str "addr0"),
          ("to_address", .str "addr2"),
          ("transfer_amount", .real (doubleAmount 150000000)),
          ("memo", .str "6869")]] ∧
      "addr0" ≠ "addr1" :=
  ⟨rfl, rfl, rfl, by decide, rfl, by decide⟩

/-- C11 as amended: for a coin transfer whose sender identifier is a public key or a
registered id and denotes the key id `sender`, and whose recipient identifier is an
address hash or a registered id and denotes the key id `recipient`,
`GetTxAddressDetail` returns exactly one record: `from_address` is the address of
`sender`, `to_address` the address of `recipient`, `transfer_amount` the WICC value
divided by `COIN` in `double`, and `memo` the hex encoding of the memo bytes, which
hex-decodes to the memo bytes again.  The amount is a `double` within three parts in
`2^53` of the exact quotient; for a value below `2^53` no `double` is nearer to the
exact quotient, and the amount is the exact quotient whenever that is a `double`
(150000000 gives 3/2). -/
theorem GetTxAddressDetail_coin_transfer (env : ChainEnv) (tx : CBaseTx)
    (sender recipient : CKeyID) (htype : tx.nTxType = .BCOIN_TRANSFER_TX)
    (hsform : (∃ p, tx.txUid = .pubKey p) ∨ ∃ r, tx.txUid = .regId r)
    (hsender : specDenotedKeyId env tx.txUid = some sender)
    (hrform : (∃ k, tx.toUid = .keyId k) ∨ ∃ r, tx.toUid = .regId r)
    (hrecipient : specDenotedKeyId env tx.toUid = some recipient) :
    GetTxAddressDetail env tx =
        [[("tx_type", .str "BCOIN_TRANSFER_TX"),
          ("from_address", .str (env.ToAddress sender)),
          ("to_address", .str (env.ToAddress recipient)),
          ("transfer_amount", .real (doubleAmount tx.valueWICC)),
          ("memo", .str (HexStr tx.memo))]] ∧
      hexDecode (HexStr tx.memo) = some (tx.memo.map fun b => b % 256) ∧
      ((∀ b, b ∈ tx.memo → b < 256) → hexDecode (HexStr tx.memo) = some tx.memo) ∧
      (∃ m : ℕ, ∃ e : ℤ, m ≤ 2 ^ 53 ∧ doubleAmount tx.valueWICC = (m : ℚ) * (2 : ℚ) ^ e) ∧
      |doubleAmount tx.valueWICC - (tx.valueWICC : ℚ) / (COIN : ℚ)|
        ≤ 3 * ((tx.valueWICC : ℚ) / (COIN : ℚ)) / (2 : ℚ) ^ (53 : ℕ) ∧
      (tx.valueWICC < 2 ^ 53 → ∀ (m : ℕ) (k : ℤ), m < 2 ^ 53 →
        |doubleAmount tx.valueWICC - (tx.valueWICC : ℚ) / (COIN : ℚ)|
            ≤ |(m : ℚ) * (2 : ℚ) ^ k - (tx.valueWICC : ℚ) / (COIN : ℚ)| ∧
        ((tx.valueWICC : ℚ) / (COIN : ℚ) = (m : ℚ) * (2 : ℚ) ^ k →
          doubleAmount tx.valueWICC = (tx.valueWICC : ℚ) / (COIN : ℚ))) := by
  have hs : senderKeyId env tx.txUid = sender := by
    rcases hsform with ⟨p, hp⟩ | ⟨r, hr⟩
    · rw [hp] at hsender ⊢
      simpa [specDenotedKeyId, senderKeyId] using hsender
    · rw [hr] at hsender ⊢
      simp only [specDenotedKeyId] at hsender
      simp [senderKeyId, CRegID.GetKeyId, hsender]
  have hr : receiverKeyId env tx.toUid = recipient := by
    rcases hrform with ⟨k, hk⟩ | ⟨r, hr⟩
    · rw [hk] at hrecipient ⊢
      simpa [specDenotedKeyId, receiverKeyId] using hrecipient
    · rw [hr] at hrecipient ⊢
      simp only [specDenotedKeyId] at hrecipient
      simp [receiverKeyId, CRegID.GetKeyId, hrecipient]
  refine ⟨?_, hexDecode_HexStr tx.memo, ?_, doubleAmount_isDouble _, doubleAmount_close _,
    fun hvalue m k hm => ⟨doubleAmount_nearest_double _ hvalue m k hm,
      doubleAmount_exact _ hvalue m k hm⟩⟩
  · unfold GetTxAddressDetail
    simp only [htype, hs, hr]
  · intro hbytes
    rw [hexDecode_HexStr]
    congr 1
    calc tx.memo.map (fun b => b % 256) = tx.memo.map id :=
          List.map_congr_left fun b hb => Nat.mod_eq_of_lt (hbytes b hb)
      _ = tx.memo := List.map_id _

/-- Witness of the amended C11: 150000000 sent from the registered id `1-1` (key id 1)
to the key id 2 with the memo `hi` gives the amount 3/2 and a memo that decodes to
`hi`. -/
theorem GetTxAddressDetail_coin_transfer_witness :
    GetTxAddressDetail sampleChain sampleTransferTx =
        [[("tx_type", .str "BCOIN_TRANSFER_TX"), ("from_address", .str "addr1"),
          ("to_address", .str "addr2"),
          ("transfer_amount", .real (doubleAmount 150000000)),
          ("memo", .str "6869")]] ∧
      doubleAmount 150000000 = 3 / 2 ∧
      hexDecode "6869" = some [104, 105] ∧
      String.mk [Char.ofNat 104, Char.ofNat 105] = "hi" :=
  have h := GetTxAddressDetail_coin_transfer sampleChain sampleTransferTx ⟨1⟩ ⟨2⟩ rfl
    (Or.inr ⟨_, rfl⟩) (by decide) (Or.inl ⟨_, rfl⟩) rfl
  ⟨h.1,
   ((h.2.2.2.2.2 (by decide) 3 (-1) (by norm_num)).2
      (by norm_num [sampleTransferTx, sampleTx, COIN])).trans
     (by norm_num [sampleTransferTx, sampleTx, COIN]),
   h.2.2.1 (by decide), by decide⟩

/-- C19, the claim fails for two of the forms: the transfer `sampleOtherFormsTx` names
its sender by the address hash 1 and its recipient by a public key of key id 2, so the
identifiers denote the addresses `addr1` and `addr2`; both fields of the record carry
`addr0`, the address of the empty key id. -/
theorem GetTxAddressDetail_identifier_forms_counterexample :
    sampleOtherFormsTx.nTxType = .BCOIN_TRANSFER_TX ∧
      specDenotedKeyId sampleChain sampleOtherFormsTx.txUid = some ⟨1⟩ ∧
      specDenotedKeyId sampleChain sampleOtherFormsTx.toUid = some ⟨2⟩ ∧
      sampleChain.ToAddress ⟨1⟩ = "addr1" ∧ sampleChain.ToAddress ⟨2⟩ = "addr2" ∧
      GetTxAddressDetail sampleChain sampleOtherFormsTx =
        [[("tx_type", .str "BCOIN_TRANSFER_TX"), ("from_address", .str "addr0"),
          ("to_address", .str "addr0"),
          ("transfer_amount", .real (doubleAmount 150000000)),
          ("memo", .str "6869")]] ∧
      "addr0" ≠ "addr1" ∧ "addr0" ≠ "addr2" :=
  ⟨rfl, rfl, rfl, by decide, by decide, rfl, by decide, by decide⟩

/-- C19 as amended: in the record of a coin transfer, `from_address` is the address of
the public key's own key id when the sender identifier is a public key, and of the key
id the account cache maps it to when it is a registered id; `to_address` is the address
of the address hash itself when the recipient identifier is an address hash, and of the
key id the account cache maps it to when it is a registered id. -/
theorem GetTxAddressDetail_identifier_forms (env : ChainEnv) (tx : CBaseTx)
    (htype : tx.nTxType = .BCOIN_TRANSFER_TX) :
    ∃ fromAddress toAddress,
      GetTxAddressDetail env tx =
        [[("tx_type", .str "BCOIN_TRANSFER_TX"), ("from_address", .str fromAddress),
          ("to_address", .str toAddress),
          ("transfer_amount", .real (doubleAmount tx.valueWICC)),
          ("memo", .str (HexStr tx.memo))]] ∧
      (∀ p, tx.txUid = .pubKey p → fromAddress = env.ToAddress (env.PubKeyGetKeyId p)) ∧
      (∀ r k, tx.txUid = .regId r → env.pAccountCache.GetKeyId (.regId r) = some k →
        fromAddress = env.ToAddress k) ∧
      (∀ k, tx.toUid = .keyId k → toAddress = env.ToAddress k) ∧
      (∀ r k, tx.toUid = .regId r → env.pAccountCache.GetKeyId (.regId r) = some k →
        toAddress = env.ToAddress k) := by
  refine ⟨env.ToAddress (senderKeyId env tx.txUid),
    env.ToAddress (receiverKeyId env tx.toUid), ?_, ?_, ?_, ?_, ?_⟩
  · unfold GetTxAddressDetail
    simp only [htype]
  · intro p hp
    rw [hp]
    rfl
  · intro r k hr hk
    rw [hr]
    simp [senderKeyId, CRegID.GetKeyId, hk]
  · intro k hk
    rw [hk]
    rfl
  · intro r k hr hk
    rw [hr]
    simp [receiverKeyId, CRegID.GetKeyId, hk]

/-- Witness of the amended C19: the sender `1-1` of `sampleTransferTx` is mapped to the
key id 1 by the account cache, the recipient is the key id 2. -/
theorem GetTxAddressDetail_identifier_forms_witness :
    sampleTransferTx.txUid = .regId ⟨[1, 0, 0, 0, 1, 0]⟩ ∧
      sampleChain.pAccountCache.GetKeyId (.regId ⟨[1, 0, 0, 0, 1, 0]⟩) = some ⟨1⟩ ∧
      sampleTransferTx.toUid = .keyId ⟨2⟩ ∧
      ∃ fromAddress toAddress,
        GetTxAddressDetail sampleChain sampleTransferTx =
          [[("tx_type", .str "BCOIN_TRANSFER_TX"), ("from_address", .str fromAddress),
            ("to_address", .str toAddress),
            ("transfer_amount", .real (doubleAmount sampleTransferTx.valueWICC)),
            ("memo", .str (HexStr sampleTransferTx.memo))]] ∧
        fromAddress = sampleChain.ToAddress ⟨1⟩ ∧ toAddress = sampleChain.ToAddress ⟨2⟩ :=
  ⟨rfl, rfl, rfl,
   (GetTxAddressDetail_identifier_forms sampleChain sampleTransferTx rfl).imp
     fun _ h => h.imp fun _ h => ⟨h.1, h.2.2.1 _ _ rfl rfl, h.2.2.2.1 _ rfl⟩⟩

end WaykiChain
